import Mathlib

/-!
# Asteroids arcade shooter: a shallow embedding of `ConsoleApplication1/main.cpp`

The frame loop `Application::Run` and the entity classes it uses are rendered as
pure functions over an explicit game state.

Modelling conventions
* `float` values are exact rationals (`ℚ`); `int` values are unbounded integers
  (`Int`).  No counter of the program comes near `2^31` in a run that a player
  can produce, and signed overflow has no defined meaning in C++.
* `std::vector` is a `List`, an iterator is an index into it.
* Values the program obtains from its environment (keyboard, frame time, random
  numbers, the width of the ship texture) are fields of `Input`.
* A computation with no defined result (an iterator stepped past `end()`, a
  loop that cannot terminate) yields `none`.
-/

namespace Asteroids

/-! ## Kinematic primitives -/

/-- The raylib `Vector2`. -/
structure Vector2 where
  x : ℚ
  y : ℚ
  deriving DecidableEq

/-- The raymath `Vector2Add`. -/
def Vector2Add (a b : Vector2) : Vector2 := ⟨a.x + b.x, a.y + b.y⟩

/-- The raymath `Vector2Scale`. -/
def Vector2Scale (v : Vector2) (s : ℚ) : Vector2 := ⟨v.x * s, v.y * s⟩

/-- Width of the window, `Application::C_WIDTH`, as returned by `Renderer::Width`. -/
def C_WIDTH : ℚ := 1200

/-- Height of the window, `Application::C_HEIGHT`, as returned by `Renderer::Height`. -/
def C_HEIGHT : ℚ := 800

/-- Bound on the asteroid collection for regular spawning, `Application::MAX_AST`. -/
def MAX_AST : Nat := 150

/-! ## Asteroids -/

/-- The enumeration `Renderable::Size`. -/
inductive Size where
  | SMALL
  | MEDIUM
  | LARGE
  deriving DecidableEq, Repr

/-- The integer value of a `Renderable::Size` enumerator (`SMALL = 1, MEDIUM = 2, LARGE = 4`). -/
def Size.toInt : Size → Int
  | Size.SMALL => 1
  | Size.MEDIUM => 2
  | Size.LARGE => 4

/-- The dynamic class of an asteroid object. -/
inductive AsteroidKind where
  | Triangle
  | Square
  | Pentagon
  | Big
  deriving DecidableEq, Repr

/-- An object of class `Asteroid` (or a subclass).  `hp` is the member `BigAsteroid::hp`;
the other classes have no such member and carry 0 there. -/
structure Asteroid where
  kind : AsteroidKind
  position : Vector2
  rotation : ℚ
  velocity : Vector2
  rotationSpeed : ℚ
  size : Size
  baseDamage : Int
  hp : Int
  deriving DecidableEq

/-- The test `dynamic_cast<BigAsteroid*>(...) != nullptr`. -/
def Asteroid.isBig (a : Asteroid) : Bool := a.kind == AsteroidKind.Big

/-- The virtual `GetRadius`: `16 * size` in `Asteroid`, overridden to `64` in `BigAsteroid`. -/
def Asteroid.GetRadius (a : Asteroid) : ℚ :=
  match a.kind with
  | AsteroidKind.Big => 64
  | _ => 16 * (a.size.toInt : ℚ)

/-- The non-virtual `Asteroid::GetDamage`: `baseDamage * static_cast<int>(render.size)`.
No subclass redefines it. -/
def Asteroid.GetDamage (a : Asteroid) : Int := a.baseDamage * a.size.toInt

/-- The method `Asteroid::GetSize`. -/
def Asteroid.GetSize (a : Asteroid) : Int := a.size.toInt

/-- The values `Asteroid::init` draws from the random source, after the float
computations (`cosf`, `sinf`, `Vector2Normalize`) that turn them into a state. -/
structure AsteroidInit where
  size : Size
  position : Vector2
  velocity : Vector2
  rotationSpeed : ℚ
  rotation : ℚ

/-- The base constructor `Asteroid::Asteroid`: `init`, with `baseDamage = 0`. -/
def Asteroid.ofInit (k : AsteroidKind) (r : AsteroidInit) : Asteroid :=
  { kind := k, position := r.position, rotation := r.rotation, velocity := r.velocity,
    rotationSpeed := r.rotationSpeed, size := r.size, baseDamage := 0, hp := 0 }

/-- The constructor `TriangleAsteroid::TriangleAsteroid`. -/
def TriangleAsteroid (r : AsteroidInit) : Asteroid :=
  { Asteroid.ofInit AsteroidKind.Triangle r with baseDamage := 5 }

/-- The constructor `SquareAsteroid::SquareAsteroid`. -/
def SquareAsteroid (r : AsteroidInit) : Asteroid :=
  { Asteroid.ofInit AsteroidKind.Square r with baseDamage := 10 }

/-- The constructor `PentagonAsteroid::PentagonAsteroid`. -/
def PentagonAsteroid (r : AsteroidInit) : Asteroid :=
  { Asteroid.ofInit AsteroidKind.Pentagon r with baseDamage := 15 }

/-- The constructor `BigAsteroid::BigAsteroid`: after `init`, damage 30, 1000 hit points,
size `LARGE`, a start on the top edge (`y = -GetRadius()`); the heading towards the centre
at speed 100 and the spin come with `r`. -/
def BigAsteroid (r : AsteroidInit) : Asteroid :=
  { Asteroid.ofInit AsteroidKind.Big r with
    baseDamage := 30, hp := 1000, size := Size.LARGE,
    position := ⟨r.position.x, -64⟩ }

/-- The enumeration `AsteroidShape`. -/
inductive AsteroidShape where
  | TRIANGLE
  | SQUARE
  | PENTAGON
  | RANDOM
  deriving DecidableEq, Repr

/-- The factory `MakeAsteroid`.  `pick` is the value of `GetRandomValue(0, 2)` used by the
`RANDOM` case, which calls the factory again with shape `3 + pick`. -/
def MakeAsteroid (shape : AsteroidShape) (pick : Nat) (r : AsteroidInit) : Asteroid :=
  match shape with
  | AsteroidShape.TRIANGLE => TriangleAsteroid r
  | AsteroidShape.SQUARE => SquareAsteroid r
  | AsteroidShape.PENTAGON => PentagonAsteroid r
  | AsteroidShape.RANDOM =>
    match pick with
    | 0 => TriangleAsteroid r
    | 1 => SquareAsteroid r
    | _ => PentagonAsteroid r

/-- The method `Asteroid::Update`: integrate, then report `false` once the asteroid has
left the screen by more than its radius. -/
def Asteroid.Update (a : Asteroid) (dt : ℚ) : Asteroid × Bool :=
  let a1 : Asteroid :=
    { a with position := Vector2Add a.position (Vector2Scale a.velocity dt),
             rotation := a.rotation + a.rotationSpeed * dt }
  if a1.position.x < -a1.GetRadius ∨ a1.position.x > C_WIDTH + a1.GetRadius ∨
      a1.position.y < -a1.GetRadius ∨ a1.position.y > C_HEIGHT + a1.GetRadius then
    (a1, false)
  else
    (a1, true)

/-! ## Projectiles -/

/-- The enumeration `WeaponType` (its last enumerator `COUNT`, the number 5, is not a weapon). -/
inductive WeaponType where
  | LASER
  | BULLET
  | ROCKET
  | PLASMA
  | SPECIAL
  deriving DecidableEq, Repr

/-- The value `static_cast<int>(wt)`. -/
def WeaponType.index : WeaponType → Nat
  | WeaponType.LASER => 0
  | WeaponType.BULLET => 1
  | WeaponType.ROCKET => 2
  | WeaponType.PLASMA => 3
  | WeaponType.SPECIAL => 4

/-- The value `static_cast<WeaponType>(n)` for `n < 5`. -/
def WeaponType.ofIndex : Nat → WeaponType
  | 0 => WeaponType.LASER
  | 1 => WeaponType.BULLET
  | 2 => WeaponType.ROCKET
  | 3 => WeaponType.PLASMA
  | _ => WeaponType.SPECIAL

/-- An object of class `Projectile`. -/
structure Projectile where
  position : Vector2
  velocity : Vector2
  baseDamage : Int
  type : WeaponType
  deriving DecidableEq

/-- The method `Projectile::Update`: integrate, then report `true` once the projectile is
outside the screen rectangle. -/
def Projectile.Update (p : Projectile) (dt : ℚ) : Projectile × Bool :=
  let p1 : Projectile := { p with position := Vector2Add p.position (Vector2Scale p.velocity dt) }
  if p1.position.x < 0 ∨ p1.position.x > C_WIDTH ∨
      p1.position.y < 0 ∨ p1.position.y > C_HEIGHT then
    (p1, true)
  else
    (p1, false)

/-- The method `Projectile::GetRadius`. -/
def Projectile.GetRadius (p : Projectile) : ℚ :=
  if p.type = WeaponType.SPECIAL then 18
  else if p.type = WeaponType.BULLET then 5 else 2

/-- The method `Projectile::GetDamage`. -/
def Projectile.GetDamage (p : Projectile) : Int := p.baseDamage

/-- The test `pit->GetDamage() != 100 || pit->GetRadius() != 18.f` by which the collision
code tells an ordinary projectile from the special one. -/
def Projectile.consumable (p : Projectile) : Bool :=
  decide (p.GetDamage ≠ 100 ∨ p.GetRadius ≠ 18)

/-! ## The ship -/

/-- An object of class `PlayerShip` (with the members of its base `Ship`).  `textureWidth`
is `texture.width` of the image loaded by the constructor. -/
structure Ship where
  position : Vector2
  hp : Int
  speed : ℚ
  alive : Bool
  fireRateLaser : ℚ
  fireRateBullet : ℚ
  spacingLaser : ℚ
  spacingBullet : ℚ
  textureWidth : ℚ
  scale : ℚ
  deriving DecidableEq

/-- The constructor `PlayerShip::PlayerShip` (running `Ship::Ship` first). -/
def PlayerShip (textureWidth : ℚ) : Ship :=
  { position := ⟨C_WIDTH * (1 / 2), C_HEIGHT * (1 / 2)⟩,
    hp := 100, speed := 250, alive := true,
    fireRateLaser := 18, fireRateBullet := 22,
    spacingLaser := 40, spacingBullet := 20,
    textureWidth := textureWidth, scale := 1 / 4 }

/-- The method `Ship::SetHP`. -/
def Ship.SetHP (s : Ship) (value : Int) : Ship := { s with hp := value }

/-- The method `Ship::TakeDamage`. -/
def Ship.TakeDamage (s : Ship) (dmg : Int) : Ship :=
  if !s.alive then s
  else
    let s1 : Ship := { s with hp := s.hp - dmg }
    if s1.hp ≤ 0 then { s1 with alive := false } else s1

/-- The method `Ship::IsAlive`. -/
def Ship.IsAlive (s : Ship) : Bool := s.alive

/-- The method `Ship::GetHP`. -/
def Ship.GetHP (s : Ship) : Int := s.hp

/-- The method `PlayerShip::GetRadius`. -/
def Ship.GetRadius (s : Ship) : ℚ := (s.textureWidth * s.scale) * (1 / 2)

/-- The method `Ship::GetFireRate`. -/
def Ship.GetFireRate (s : Ship) (wt : WeaponType) : ℚ :=
  if wt = WeaponType.LASER then s.fireRateLaser else s.fireRateBullet

/-- The method `Ship::GetSpacing`. -/
def Ship.GetSpacing (s : Ship) (wt : WeaponType) : ℚ :=
  if wt = WeaponType.LASER then s.spacingLaser else s.spacingBullet

/-- The method `PlayerShip::Update`; the four flags are `IsKeyDown` of W, S, A and D. -/
def Ship.Update (s : Ship) (dt : ℚ) (keyW keyS keyA keyD : Bool) : Ship :=
  if s.alive then
    let y1 := if keyW then s.position.y - s.speed * dt else s.position.y
    let y2 := if keyS then y1 + s.speed * dt else y1
    let x1 := if keyA then s.position.x - s.speed * dt else s.position.x
    let x2 := if keyD then x1 + s.speed * dt else x1
    { s with position := ⟨x2, y2⟩ }
  else
    { s with position := ⟨s.position.x, s.position.y + s.speed * dt⟩ }

/-! ## The application state -/

/-- The local enumeration `ShootDir` of `Application::Run`. -/
inductive ShootDir where
  | UP
  | RIGHT
  | DOWN
  | LEFT
  deriving DecidableEq, Repr

/-- The successor `(static_cast<int>(shootDir) + 1) % 4`. -/
def ShootDir.next : ShootDir → ShootDir
  | ShootDir.UP => ShootDir.RIGHT
  | ShootDir.RIGHT => ShootDir.DOWN
  | ShootDir.DOWN => ShootDir.LEFT
  | ShootDir.LEFT => ShootDir.UP

/-- The unit vector chosen by the `switch (shootDir)` of the firing code. -/
def ShootDir.dir : ShootDir → Vector2
  | ShootDir.UP => ⟨0, -1⟩
  | ShootDir.RIGHT => ⟨1, 0⟩
  | ShootDir.DOWN => ⟨0, 1⟩
  | ShootDir.LEFT => ⟨-1, 0⟩

/-- The members of `Application` together with the locals of `Application::Run` that live
across frames. -/
structure Game where
  player : Ship
  spawnTimer : ℚ
  spawnInterval : ℚ
  currentWeapon : WeaponType
  shotTimer : ℚ
  shootDir : ShootDir
  usedHealthpack : Bool
  usedSpecial : Bool
  gameEnded : Bool
  destroyedAsteroids : Int
  bigAsteroidSpawned : Bool
  healthpacks : Int
  destroyedObstacles : Int
  specialCharge : Int
  specialReady : Bool
  asteroids : List Asteroid
  projectiles : List Projectile
  currentShape : AsteroidShape

/-- What one frame reads from its environment: the frame time, the keyboard, the random
source and the texture loaded for a new ship. -/
structure Input where
  dt : ℚ
  keyW : Bool
  keyS : Bool
  keyA : Bool
  keyD : Bool
  keyR : Bool
  keyOne : Bool
  keyTwo : Bool
  keyThree : Bool
  keyFour : Bool
  keyC : Bool
  keyTab : Bool
  keySpace : Bool
  keyH : Bool
  textureWidth : ℚ
  restartInterval : ℚ
  nextInterval : ℚ
  pick : Nat
  spawnInit : AsteroidInit
  bigInit : AsteroidInit

/-- The state in which `Application::Run` enters its frame loop: the member initialisers of
`Application`, a new ship, and the locals of `Run`. -/
def Game.initial (textureWidth spawnInterval : ℚ) : Game :=
  { player := PlayerShip textureWidth,
    spawnTimer := 0, spawnInterval := spawnInterval,
    currentWeapon := WeaponType.LASER, shotTimer := 0, shootDir := ShootDir.UP,
    usedHealthpack := false, usedSpecial := false, gameEnded := false,
    destroyedAsteroids := 0, bigAsteroidSpawned := false,
    healthpacks := 0, destroyedObstacles := 0,
    specialCharge := 0, specialReady := false,
    asteroids := [], projectiles := [],
    currentShape := AsteroidShape.TRIANGLE }

/-! ## The sections of one frame of `Application::Run`, before the collisions -/

/-- Restart logic: `if (!player->IsAlive() && IsKeyPressed(KEY_R)) { ... }`. -/
def restart (g : Game) (i : Input) : Game :=
  if !g.player.IsAlive && i.keyR then
    { g with player := PlayerShip i.textureWidth, asteroids := [], projectiles := [],
             spawnTimer := 0, spawnInterval := i.restartInterval }
  else g

/-- The weapon after the `KEY_TAB` switch: the next enumerator modulo `COUNT`, with
`SPECIAL` skipped. -/
def nextWeapon (w : WeaponType) : WeaponType :=
  let next := (w.index + 1) % 5
  let next := if next = WeaponType.SPECIAL.index then 0 else next
  WeaponType.ofIndex next

/-- The asteroid shape switch (keys 1 to 4), the aim switch (`KEY_C`) and the weapon
switch (`KEY_TAB`). -/
def controls (g : Game) (i : Input) : Game :=
  let s1 := if i.keyOne then AsteroidShape.TRIANGLE else g.currentShape
  let s2 := if i.keyTwo then AsteroidShape.SQUARE else s1
  let s3 := if i.keyThree then AsteroidShape.PENTAGON else s2
  let s4 := if i.keyFour then AsteroidShape.RANDOM else s3
  let d := if i.keyC then g.shootDir.next else g.shootDir
  let w := if i.keyTab then nextWeapon g.currentWeapon else g.currentWeapon
  { g with currentShape := s4, shootDir := d, currentWeapon := w }

/-- A rational stand-in for `cosf(20 * PI / 180)`. -/
def cos20 : ℚ := 9396926 / 10000000

/-- A rational stand-in for `sinf(20 * PI / 180)`. -/
def sin20 : ℚ := 3420201 / 10000000

/-- The direction `{ cosf(angle + a), sinf(angle + a) }` for a unit vector `dir` of angle
`angle`, where `s` stands for `sinf(a)` and `a` is plus or minus 20 degrees. -/
def splay (dir : Vector2) (s : ℚ) : Vector2 :=
  ⟨dir.x * cos20 - dir.y * s, dir.y * cos20 + dir.x * s⟩

/-- The position `p` at which projectiles are created: the ship position moved up by the
ship radius. -/
def muzzle (s : Ship) : Vector2 := ⟨s.position.x, s.position.y - s.GetRadius⟩

/-- The `switch (currentWeapon)` of the firing code: damage and speed of the projectile. -/
def weaponStats (s : Ship) (w : WeaponType) : Int × ℚ :=
  let projSpeed := s.GetSpacing w * s.GetFireRate w
  match w with
  | WeaponType.LASER => (20, projSpeed)
  | WeaponType.BULLET => (10, projSpeed)
  | WeaponType.ROCKET => (40, projSpeed * (6 / 10))
  | WeaponType.PLASMA => (15, projSpeed * (12 / 10))
  | WeaponType.SPECIAL => (10, projSpeed)

/-- The projectiles that one iteration of the shot loop appends, in the order of the
`push_back` calls: those of the `if (currentWeapon == PLASMA) ... else ...` statement,
then the one of the unconditional `push_back` that follows it. -/
def shotProjectiles (s : Ship) (w : WeaponType) (d : ShootDir) : List Projectile :=
  let p := muzzle s
  let dir := d.dir
  let dmg := (weaponStats s w).1
  let projSpeed := (weaponStats s w).2
  let branch : List Projectile :=
    if w = WeaponType.PLASMA then
      [ ⟨p, Vector2Scale dir projSpeed, dmg, w⟩,
        ⟨p, Vector2Scale (splay dir (-sin20)) projSpeed, dmg, w⟩,
        ⟨p, Vector2Scale (splay dir sin20) projSpeed, dmg, w⟩ ]
    else
      [ ⟨p, Vector2Scale dir projSpeed, dmg, w⟩ ]
  branch ++ [ ⟨p, Vector2Scale dir projSpeed, dmg, w⟩ ]

/-- One iteration of `while (shotTimer >= interval) { ... }`. -/
def shotBody (interval : ℚ) (g : Game) : Game :=
  { g with projectiles := g.projectiles ++ shotProjectiles g.player g.currentWeapon g.shootDir,
           shotTimer := g.shotTimer - interval }

/-- The loop `while (shotTimer >= interval) { ... }`.  The second component counts the
iterations made (it is not a variable of the program).  With `interval ≤ 0` the loop cannot
end once entered, which is the result `none`. -/
def shotLoop (interval : ℚ) (g : Game) (n : Nat) : Option (Game × Nat) :=
  if g.shotTimer ≥ interval then
    if 0 < interval then shotLoop interval (shotBody interval g) (n + 1)
    else none
  else some (g, n)
termination_by (⌊g.shotTimer / interval⌋).toNat
decreasing_by
  rename_i h hpos
  have hstep : (shotBody interval g).shotTimer = g.shotTimer - interval := rfl
  rw [hstep, sub_div, div_self (ne_of_gt hpos), Int.floor_sub_one]
  have h1 : (1 : ℚ) ≤ g.shotTimer / interval := by
    rw [le_div_iff₀ hpos]
    simpa using h
  have h2 : (1 : ℤ) ≤ ⌊g.shotTimer / interval⌋ := by
    rw [Int.le_floor]
    simpa using h1
  omega

/-- The firing statement: `if (player->IsAlive() && IsKeyDown(KEY_SPACE)) { shotTimer += dt;
... while ... }`, with the number of loop iterations. -/
def fire (g : Game) (i : Input) : Option (Game × Nat) :=
  if g.player.IsAlive && i.keySpace then
    shotLoop (1 / g.player.GetFireRate g.currentWeapon)
      { g with shotTimer := g.shotTimer + i.dt } 0
  else some (g, 0)

/-- The healthpack statement: `if (player->IsAlive() && healthpacks > 0 &&
IsKeyPressed(KEY_H)) { ... }`. -/
def useHealthpack (g : Game) (i : Input) : Game :=
  if g.player.IsAlive && decide (g.healthpacks > 0) && i.keyH then
    let newHP := g.player.GetHP + 20
    let newHP := if newHP > 100 then 100 else newHP
    { g with usedHealthpack := true, player := g.player.SetHP newHP,
             healthpacks := g.healthpacks - 1 }
  else g

/-- The C function `fmodf` on exact values: `x - y * trunc(x / y)`, truncation towards zero. -/
def fmodf (x y : ℚ) : ℚ :=
  let q := x / y
  x - y * ((if 0 ≤ q then ⌊q⌋ else ⌈q⌉ : ℤ) : ℚ)

/-- The special shot and its `else` branch, which reduces `shotTimer` modulo the shot
interval: `if (player->IsAlive() && specialReady && IsKeyPressed(KEY_R)) { ... } else { ... }`. -/
def specialShot (g : Game) (i : Input) : Game :=
  if g.player.IsAlive && g.specialReady && i.keyR then
    { g with usedSpecial := true,
             projectiles := g.projectiles ++
               [ ⟨muzzle g.player, Vector2Scale g.shootDir.dir 600, 100, WeaponType.SPECIAL⟩ ],
             specialReady := false, specialCharge := 0 }
  else
    let maxInterval := 1 / g.player.GetFireRate g.currentWeapon
    if g.shotTimer > maxInterval then
      { g with shotTimer := fmodf g.shotTimer maxInterval }
    else g

/-- Spawn asteroids: `if (spawnTimer >= spawnInterval && asteroids.size() < MAX_AST) { ... }`. -/
def spawn (g : Game) (i : Input) : Game :=
  if g.spawnTimer ≥ g.spawnInterval ∧ g.asteroids.length < MAX_AST then
    { g with asteroids := g.asteroids ++ [MakeAsteroid g.currentShape i.pick i.spawnInit],
             spawnTimer := 0, spawnInterval := i.nextInterval }
  else g

/-- Update projectiles: `remove_if` with `Projectile::Update`, then `erase`; the projectiles
kept are the updated ones that are still on the screen, in their order. -/
def updateProjectiles (g : Game) (dt : ℚ) : Game :=
  { g with projectiles :=
      g.projectiles.filterMap (fun p => if (p.Update dt).2 then none else some (p.Update dt).1) }

/-! ## Projectile-asteroid collisions -/

/-- The test `Vector2Distance(c1, c2) < r`, on exact values: the distance is the square
root of `dx * dx + dy * dy`, which is below `r` exactly when `r` is positive and the sum of
squares is below `r * r`. -/
def within (c1 c2 : Vector2) (r : ℚ) : Bool :=
  decide (0 < r ∧ (c1.x - c2.x) * (c1.x - c2.x) + (c1.y - c2.y) * (c1.y - c2.y) < r * r)

/-- The collision test of a projectile and an asteroid:
`dist < (*pit).GetRadius() + (*ait)->GetRadius()`. -/
def overlaps (p : Projectile) (a : Asteroid) : Bool :=
  within p.position a.position (p.GetRadius + a.GetRadius)

/-- The counters block of a destruction (from `destroyedObstacles++` to the spawn of the
Big asteroid): healthpack every 15, special charge up to 10, Big asteroid at 30. -/
def countDestroyed (bigInit : AsteroidInit) (g : Game) : Game :=
  let g1 : Game := { g with destroyedObstacles := g.destroyedObstacles + 1 }
  let g2 : Game :=
    if g1.destroyedObstacles ≥ 15 then
      { g1 with healthpacks := g1.healthpacks + 1, destroyedObstacles := 0 }
    else g1
  let g3 : Game :=
    if !g2.specialReady then
      let g21 : Game := { g2 with specialCharge := g2.specialCharge + 1 }
      if g21.specialCharge ≥ 10 then { g21 with specialReady := true, specialCharge := 10 }
      else g21
    else g2
  let g4 : Game := { g3 with destroyedAsteroids := g3.destroyedAsteroids + 1 }
  if g4.destroyedAsteroids ≥ 30 ∧ !g4.bigAsteroidSpawned then
    { g4 with asteroids := g4.asteroids ++ [BigAsteroid bigInit], bigAsteroidSpawned := true }
  else g4

/-- The body of `if (!big || big->hp <= 0) { ... }`: the destruction of the asteroid at
index `ait` by the projectile `p` at index `pit`; `big` tells whether the asteroid is a
`BigAsteroid`.  The second component is the new value of `removed`. -/
def destroyAsteroid (bigInit : AsteroidInit) (g : Game) (pit ait : Nat) (p : Projectile)
    (big : Bool) : Game × Bool :=
  let g1 : Game :=
    if big && !g.usedHealthpack && !g.usedSpecial then { g with gameEnded := true } else g
  let g2 : Game := { g1 with asteroids := g1.asteroids.eraseIdx ait }
  let g3 : Game :=
    if p.consumable then { g2 with projectiles := g2.projectiles.eraseIdx pit } else g2
  (countDestroyed bigInit g3, p.consumable)

/-- The body of `if (dist < ...) { ... }` up to the final `if (removed) break;`, for the
projectile `p` at index `pit` and the asteroid `a` at index `ait`.  The result is the new
state, the value of `removed`, and whether the asteroid loop is left by a `break`. -/
def hitAsteroid (bigInit : AsteroidInit) (g : Game) (pit ait : Nat) (p : Projectile)
    (a : Asteroid) : Game × Bool × Bool :=
  let a1 : Asteroid := if a.isBig then { a with hp := a.hp - p.GetDamage } else a
  let g1 : Game := if a.isBig then { g with asteroids := g.asteroids.set ait a1 } else g
  if a.isBig && decide (a1.hp > 0) then
    if p.consumable then
      ({ g1 with projectiles := g1.projectiles.eraseIdx pit }, true, true)
    else (g1, false, true)
  else if !a.isBig || decide (a1.hp ≤ 0) then
    let r := destroyAsteroid bigInit g1 pit ait p a.isBig
    (r.1, r.2, r.2)
  else (g1, false, false)

/-! The lemmas between the definitions of this section are those that the termination of
the two collision loops rests on. -/

/-- The counters block appends at most one asteroid and leaves the projectiles alone. -/
theorem countDestroyed_lengths (bigInit : AsteroidInit) (g : Game) :
    (countDestroyed bigInit g).asteroids.length ≤ g.asteroids.length + 1 ∧
    (countDestroyed bigInit g).projectiles = g.projectiles := by
  unfold countDestroyed
  dsimp only
  split_ifs <;> simp

/-- A destruction never lengthens the asteroid collection. -/
theorem destroyAsteroid_length (bigInit : AsteroidInit) (g : Game) (pit ait : Nat)
    (p : Projectile) (big : Bool) (h : ait < g.asteroids.length) :
    (destroyAsteroid bigInit g pit ait p big).1.asteroids.length ≤ g.asteroids.length := by
  unfold destroyAsteroid
  dsimp only
  refine le_trans (countDestroyed_lengths bigInit _).1 ?_
  split_ifs <;> simp [List.length_eraseIdx, h] <;> omega

/-- A hit never lengthens the asteroid collection (used for the termination of the
asteroid loop). -/
theorem hitAsteroid_length (bigInit : AsteroidInit) (g : Game) (pit ait : Nat)
    (p : Projectile) (a : Asteroid) (h : ait < g.asteroids.length) :
    (hitAsteroid bigInit g pit ait p a).1.asteroids.length ≤ g.asteroids.length := by
  unfold hitAsteroid
  dsimp only
  by_cases hb : a.isBig = true
  · simp only [hb, if_true]
    split
    · split <;> simp
    · split
      · refine le_trans (destroyAsteroid_length bigInit _ pit ait p true (by simpa using h)) ?_
        simp
      · simp
  · simp only [Bool.not_eq_true] at hb
    simpa [hb] using destroyAsteroid_length bigInit g pit ait p false h

/-- The asteroid loop `for (auto ait = asteroids.begin(); ait != asteroids.end(); ++ait)`
for the projectile at index `pit`, entered with the iterator at index `ait`.  The result is
the state at the exit of the loop and the value of `removed`.  An iterator beyond `end()`
(after the erasure of the last asteroid followed by `++ait`) or an invalid `pit` has no
defined behaviour: `none`. -/
def asteroidScan (bigInit : AsteroidInit) (pit : Nat) (g : Game) (ait : Nat) :
    Option (Game × Bool) :=
  if ait = g.asteroids.length then some (g, false)
  else if hlt : ait < g.asteroids.length then
    match g.projectiles[pit]? with
    | none => none
    | some p =>
      if overlaps p g.asteroids[ait] then
        match hr : hitAsteroid bigInit g pit ait p g.asteroids[ait] with
        | (g1, removed, true) => some (g1, removed)
        | (g1, _, false) => asteroidScan bigInit pit g1 (ait + 1)
      else asteroidScan bigInit pit g (ait + 1)
  else none
termination_by g.asteroids.length - ait
decreasing_by
  · have hlen := hitAsteroid_length bigInit g pit ait p g.asteroids[ait] hlt
    rw [hr] at hlen
    simp only at hlen
    omega
  · omega


/-- The effect of a hit on the projectile collection: one projectile fewer when `removed`
is set, no change otherwise; and the loop is left by `break` whenever `removed` is set. -/
theorem hitAsteroid_projectiles (bigInit : AsteroidInit) (g : Game) (pit ait : Nat)
    (p : Projectile) (a : Asteroid) (h : pit < g.projectiles.length) :
    ((hitAsteroid bigInit g pit ait p a).2.1 = true →
      (hitAsteroid bigInit g pit ait p a).1.projectiles.length + 1 = g.projectiles.length ∧
      (hitAsteroid bigInit g pit ait p a).2.2 = true) ∧
    ((hitAsteroid bigInit g pit ait p a).2.1 = false →
      (hitAsteroid bigInit g pit ait p a).1.projectiles = g.projectiles) := by
  unfold hitAsteroid destroyAsteroid
  dsimp only
  split_ifs <;> simp_all [countDestroyed_lengths, List.length_eraseIdx] <;> omega

/-- The asteroid loop ends when the iterator is at `end()`. -/
theorem asteroidScan_end (bigInit : AsteroidInit) (pit : Nat) (g : Game) :
    asteroidScan bigInit pit g g.asteroids.length = some (g, false) := by
  rw [asteroidScan]
  simp

/-- The asteroid loop on an asteroid that the projectile does not touch: next asteroid. -/
theorem asteroidScan_miss (bigInit : AsteroidInit) (pit : Nat) (g : Game) (ait : Nat)
    (p : Projectile) (hlt : ait < g.asteroids.length) (hp : g.projectiles[pit]? = some p)
    (hov : overlaps p g.asteroids[ait] = false) :
    asteroidScan bigInit pit g ait = asteroidScan bigInit pit g (ait + 1) := by
  rw [asteroidScan]
  simp [Nat.ne_of_lt hlt, hlt, hp, hov]

/-- The asteroid loop on an asteroid that the projectile touches, when the hit ends in a
`break`. -/
theorem asteroidScan_hit_break (bigInit : AsteroidInit) (pit : Nat) (g : Game) (ait : Nat)
    (p : Projectile) (g2 : Game) (removed : Bool)
    (hlt : ait < g.asteroids.length) (hp : g.projectiles[pit]? = some p)
    (hov : overlaps p g.asteroids[ait] = true)
    (hr : hitAsteroid bigInit g pit ait p g.asteroids[ait] = (g2, removed, true)) :
    asteroidScan bigInit pit g ait = some (g2, removed) := by
  rw [asteroidScan]
  simp only [Nat.ne_of_lt hlt, hlt, hp, hov, if_false, if_true, dite_true]
  split
  · rename_i heq
    rw [hr] at heq
    simp only [Prod.mk.injEq] at heq
    simp [heq.1, heq.2.1]
  · rename_i heq
    rw [hr] at heq
    simp at heq

/-- The asteroid loop on an asteroid that the projectile touches, when the hit does not end
in a `break`: the loop goes on, in the state after the hit, with `++ait`. -/
theorem asteroidScan_hit_continue (bigInit : AsteroidInit) (pit : Nat) (g : Game) (ait : Nat)
    (p : Projectile) (g2 : Game) (removed : Bool)
    (hlt : ait < g.asteroids.length) (hp : g.projectiles[pit]? = some p)
    (hov : overlaps p g.asteroids[ait] = true)
    (hr : hitAsteroid bigInit g pit ait p g.asteroids[ait] = (g2, removed, false)) :
    asteroidScan bigInit pit g ait = asteroidScan bigInit pit g2 (ait + 1) := by
  rw [asteroidScan]
  simp only [Nat.ne_of_lt hlt, hlt, hp, hov, if_false, if_true, dite_true]
  split
  · rename_i heq
    rw [hr] at heq
    simp at heq
  · rename_i heq
    rw [hr] at heq
    simp only [Prod.mk.injEq] at heq
    rw [heq.1]

/-- The effect of the asteroid loop on the projectile collection (used for the termination
of the projectile loop). -/
theorem asteroidScan_projectiles (bigInit : AsteroidInit) (pit : Nat) (g : Game) (ait : Nat)
    (g1 : Game) (removed : Bool) (h : asteroidScan bigInit pit g ait = some (g1, removed)) :
    (removed = true → g1.projectiles.length + 1 = g.projectiles.length) ∧
    (removed = false → g1.projectiles = g.projectiles) := by
  induction g, ait using asteroidScan.induct bigInit pit with
  | case1 g =>
    rw [asteroidScan_end] at h
    simp only [Option.some.injEq, Prod.mk.injEq] at h
    obtain ⟨rfl, rfl⟩ := h
    simp
  | case2 g ait hne hlt hp =>
    rw [asteroidScan] at h
    simp [hne, hlt, hp] at h
  | case3 g ait hne hlt p hp hov g2 rem hr =>
    rw [asteroidScan_hit_break bigInit pit g ait p g2 rem hlt hp hov hr] at h
    simp only [Option.some.injEq, Prod.mk.injEq] at h
    obtain ⟨rfl, rfl⟩ := h
    have hpit : pit < g.projectiles.length := by
      by_contra hc
      rw [List.getElem?_eq_none (by omega)] at hp
      simp at hp
    have := hitAsteroid_projectiles bigInit g pit ait p g.asteroids[ait] hpit
    rw [hr] at this
    exact ⟨fun h1 => (this.1 h1).1, this.2⟩
  | case4 g ait hne hlt p hp hov g2 rem hr ih =>
    rw [asteroidScan_hit_continue bigInit pit g ait p g2 rem hlt hp hov hr] at h
    have hpit : pit < g.projectiles.length := by
      by_contra hc
      rw [List.getElem?_eq_none (by omega)] at hp
      simp at hp
    have := hitAsteroid_projectiles bigInit g pit ait p g.asteroids[ait] hpit
    rw [hr] at this
    have hrem : rem = false := by
      cases rem
      · rfl
      · simpa using (this.1 rfl).2
    have hg2 := this.2 hrem
    simp only at hg2
    rw [← hg2]
    exact ih h
  | case5 g ait hne hlt p hp hov ih =>
    rw [asteroidScan_miss bigInit pit g ait p hlt hp (by simpa using hov)] at h
    exact ih h
  | case6 g ait hne hlt =>
    rw [asteroidScan] at h
    simp [hne, hlt] at h

/-- The projectile loop `for (auto pit = projectiles.begin(); pit != projectiles.end();)`,
entered with the iterator at index `pit`: one asteroid loop per projectile, then `++pit`
unless the projectile was erased. -/
def collisions (bigInit : AsteroidInit) (g : Game) (pit : Nat) : Option Game :=
  if pit = g.projectiles.length then some g
  else if pit < g.projectiles.length then
    match hs : asteroidScan bigInit pit g 0 with
    | none => none
    | some (g1, true) => collisions bigInit g1 pit
    | some (g1, false) => collisions bigInit g1 (pit + 1)
  else none
termination_by g.projectiles.length - pit
decreasing_by
  · have h1 := (asteroidScan_projectiles bigInit pit g 0 g1 true hs).1 rfl
    omega
  · have h1 := (asteroidScan_projectiles bigInit pit g 0 g1 false hs).2 rfl
    rw [h1]
    omega

/-! ## Asteroid-ship collisions and the frame -/

/-- The collision test of the ship and an asteroid:
`dist < player->GetRadius() + asteroid->GetRadius()`. -/
def overlapsShip (s : Ship) (a : Asteroid) : Bool :=
  within s.position a.position (s.GetRadius + a.GetRadius)

/-- The lambda `remove_collision` applied to one asteroid: the ship and the asteroid after
the call, and the returned flag (`true`: the asteroid is removed). -/
def remove_collision (dt : ℚ) (player : Ship) (a : Asteroid) : Ship × Asteroid × Bool :=
  if player.IsAlive && overlapsShip player a then
    (player.TakeDamage a.GetDamage, a, true)
  else
    (player, (a.Update dt).1, !(a.Update dt).2)

/-- The call `std::remove_if(asteroids.begin(), asteroids.end(), remove_collision)` followed
by `erase`: the lambda runs once on each asteroid, in order; the asteroids for which it
returned `false` are kept, in their order. -/
def removeCollided (dt : ℚ) : Ship → List Asteroid → Ship × List Asteroid
  | s, [] => (s, [])
  | s, a :: rest =>
    let r := remove_collision dt s a
    let r2 := removeCollided dt r.1 rest
    (r2.1, if r.2.2 then r2.2 else r.2.1 :: r2.2)

/-- The block "Asteroid-Ship collisions". -/
def shipCollisions (g : Game) (dt : ℚ) : Game :=
  { g with player := (removeCollided dt g.player g.asteroids).1,
           asteroids := (removeCollided dt g.player g.asteroids).2 }

/-- The statement `spawnTimer += dt` at the head of the frame. -/
def tick (g : Game) (dt : ℚ) : Game := { g with spawnTimer := g.spawnTimer + dt }

/-- The statement `player->Update(dt)`. -/
def updatePlayer (g : Game) (i : Input) : Game :=
  { g with player := g.player.Update i.dt i.keyW i.keyS i.keyA i.keyD }

/-- The shooting block of the frame: firing loop, healthpack, special shot or reduction of
`shotTimer`.  The second component is the number of iterations of the shot loop. -/
def shooting (g : Game) (i : Input) : Option (Game × Nat) :=
  match fire g i with
  | none => none
  | some (g1, n) => some (specialShot (useHealthpack g1 i) i, n)

/-- One iteration of the frame loop `while (!WindowShouldClose()) { ... }` of
`Application::Run` (drawing left out), with the number of iterations of the shot loop. -/
def frame (g : Game) (i : Input) : Option (Game × Nat) :=
  if (tick g i.dt).gameEnded then some (tick g i.dt, 0)
  else
    match shooting (controls (restart (updatePlayer (tick g i.dt) i) i) i) i with
    | none => none
    | some (g1, n) =>
      match collisions i.bigInit (updateProjectiles (spawn g1 i) i.dt) 0 with
      | none => none
      | some g2 => some (shipCollisions g2 i.dt, n)

/-- The frame loop of `Application::Run` over the inputs of finitely many frames, with the
total number of iterations of the shot loop. -/
def Run (g : Game) : List Input → Option (Game × Nat)
  | [] => some (g, 0)
  | i :: rest =>
    match frame g i with
    | none => none
    | some (g1, n) =>
      match Run g1 rest with
      | none => none
      | some (g2, m) => some (g2, n + m)

/-! ## Runs, events and sample values used by the statements -/

/-- An event that changes the hit points of the ship: the contact with an asteroid made by
`MakeAsteroid` or with a `BigAsteroid` (the call `player->TakeDamage(asteroid->GetDamage())`
of `remove_collision`), or the healthpack statement of a frame with input `i`. -/
inductive ShipEvent where
  | contact (shape : AsteroidShape) (pick : Nat) (r : AsteroidInit)
  | contactBig (r : AsteroidInit)
  | healthpack (i : Input)

/-- The state after an event on the ship. -/
def applyEvent (g : Game) : ShipEvent → Game
  | ShipEvent.contact shape pick r =>
    { g with player := g.player.TakeDamage (MakeAsteroid shape pick r).GetDamage }
  | ShipEvent.contactBig r =>
    { g with player := g.player.TakeDamage (BigAsteroid r).GetDamage }
  | ShipEvent.healthpack i => useHealthpack g i

/-- The state after a sequence of events on the ship. -/
def applyEvents (g : Game) (evs : List ShipEvent) : Game := evs.foldl applyEvent g

/-- A sample draw of `Asteroid::init`: a `LARGE` asteroid on the top edge, heading down. -/
def sampleInit : AsteroidInit :=
  { size := Size.LARGE, position := ⟨600, -64⟩, velocity := ⟨0, 125⟩,
    rotationSpeed := 50, rotation := 0 }

/-- A sample frame input: a sixtieth of a second, no key down. -/
def idleInput : Input :=
  { dt := 1 / 60, keyW := false, keyS := false, keyA := false, keyD := false, keyR := false,
    keyOne := false, keyTwo := false, keyThree := false, keyFour := false, keyC := false,
    keyTab := false, keySpace := false, keyH := false, textureWidth := 256,
    restartInterval := 1, nextInterval := 2, pick := 0,
    spawnInit := sampleInit, bigInit := sampleInit }

/-- A sample state in the middle of a run: the ship destroyed, some progress made. -/
def sampleWreck : Game :=
  { Game.initial 256 1 with
    player := { PlayerShip 256 with hp := -5, alive := false },
    healthpacks := 2, specialCharge := 7, destroyedObstacles := 3, destroyedAsteroids := 18 }

/-- The range of the ship's hit points: at most 100, at least -119, positive exactly while
the ship is alive. -/
def Ship.hpInRange (s : Ship) : Prop :=
  s.hp ≤ 100 ∧ -119 ≤ s.hp ∧ (s.alive = true ↔ 0 < s.hp)

/-- The ship's hit points are in range and every asteroid of the collection has a contact
damage between 1 and 120. -/
def Game.shipInv (g : Game) : Prop :=
  g.player.hpInRange ∧ ∀ a ∈ g.asteroids, 0 < a.GetDamage ∧ a.GetDamage ≤ 120

/-- The states of a run: the state at the entry of the frame loop, and every state that a
frame produces from a state of the run. -/
inductive Reachable : Game → Prop where
  | initial (textureWidth spawnInterval : ℚ) : Reachable (Game.initial textureWidth spawnInterval)
  | step (g : Game) (i : Input) (g1 : Game) (n : Nat) :
      Reachable g → frame g i = some (g1, n) → Reachable g1

/-- The ranges of the progression counters and their relation to the progression flags. -/
def Game.progressInv (g : Game) : Prop :=
  (0 ≤ g.destroyedObstacles ∧ g.destroyedObstacles ≤ 14) ∧
  (0 ≤ g.specialCharge ∧ g.specialCharge ≤ 10) ∧
  (g.specialReady = true ↔ g.specialCharge = 10) ∧
  0 ≤ g.destroyedAsteroids ∧
  (g.bigAsteroidSpawned = true ↔ 30 ≤ g.destroyedAsteroids) ∧
  0 ≤ g.healthpacks

/-- The data of one destruction of an asteroid by a projectile: the draw for a Big asteroid
that the destruction may spawn, the positions of the projectile and of the asteroid in
their collections, the projectile, and whether the asteroid is a `BigAsteroid`. -/
structure Destruction where
  bigInit : AsteroidInit
  pit : Nat
  ait : Nat
  p : Projectile
  big : Bool

/-- The state after one destruction. -/
def destroy (g : Game) (d : Destruction) : Game :=
  (destroyAsteroid d.bigInit g d.pit d.ait d.p d.big).1

/-- The state after a sequence of destructions. -/
def destroyAll (g : Game) (ds : List Destruction) : Game := ds.foldl destroy g

/-- The state after a sequence of hits, by the projectiles `hits` (each with its index), on
the asteroid at index `ait`. -/
def hitAll (bigInit : AsteroidInit) (ait : Nat) : Game → List (Nat × Projectile) → Game
  | g, [] => g
  | g, h :: rest =>
    match g.asteroids[ait]? with
    | some a => hitAll bigInit ait (hitAsteroid bigInit g h.1 ait h.2 a).1 rest
    | none => g

/-- A sample laser projectile (damage 20). -/
def sampleLaser : Projectile := ⟨⟨600, -64⟩, ⟨0, -720⟩, 20, WeaponType.LASER⟩

/-- A sample Big asteroid with 20 hit points left. -/
def sampleBig20 : Asteroid := { BigAsteroid sampleInit with hp := 20 }

/-- A sample state: a new game with one Big asteroid that has 20 hit points left and one
laser projectile on it. -/
def sampleDuel : Game :=
  { Game.initial 256 1 with
    asteroids := [sampleBig20],
    projectiles := [sampleLaser],
    destroyedAsteroids := 30, bigAsteroidSpawned := true }

/-- A sample destruction: the first projectile, a laser, on the first asteroid, a standard one. -/
def sampleDestruction : Destruction :=
  { bigInit := sampleInit, pit := 0, ait := 0,
    p := ⟨⟨600, 300⟩, ⟨0, -720⟩, 20, WeaponType.LASER⟩, big := false }

/-- A run in which the fire key is held in every frame, by a live ship whose current
weapon has fire rate `R` and is not switched, with non-negative frame times, and in which
every frame has a defined result. -/
def heldRun (R : ℚ) : Game → List Input → Prop
  | _, [] => True
  | g, i :: rest =>
    g.gameEnded = false ∧ g.player.IsAlive = true ∧ i.keySpace = true ∧ i.keyTab = false ∧
    0 ≤ i.dt ∧ g.player.GetFireRate g.currentWeapon = R ∧
    ∃ (g1 : Game) (n : Nat), frame g i = some (g1, n) ∧ heldRun R g1 rest

/-- The sum of the frame times of a list of inputs. -/
def totalTime (inputs : List Input) : ℚ := (inputs.map (fun i => i.dt)).sum

/-- The part of the state on which the course of a frame without asteroids depends: the end
flag, the life of the ship, the fire rate of the current weapon, the asteroid collection,
and the spawn timer with its interval. -/
def Game.calm (g : Game) : Bool × Bool × ℚ × List Asteroid × ℚ × ℚ :=
  (g.gameEnded, g.player.alive, g.player.GetFireRate g.currentWeapon, g.asteroids,
   g.spawnTimer, g.spawnInterval)

/-- A sample frame input with the fire key held for a tenth of a second. -/
def heldInput : Input := { idleInput with dt := 1 / 10, keySpace := true }

/-- A sample state: a new game in which a Big asteroid with its 1000 hit points has been
spawned. -/
def sampleBoss : Game :=
  { Game.initial 256 1 with
    asteroids := [BigAsteroid sampleInit],
    destroyedAsteroids := 30, bigAsteroidSpawned := true }

/-- The sample duel after its laser has destroyed the Big asteroid: the run has ended, the
ship is alive. -/
def sampleEnded : Game := (hitAsteroid sampleInit sampleDuel 0 0 sampleLaser sampleBig20).1

/-- A sample special projectile (damage 100, radius 18) in the middle of the screen. -/
def sampleSpecial : Projectile := ⟨⟨600, 300⟩, ⟨0, -600⟩, 100, WeaponType.SPECIAL⟩

/-- A sample small triangle asteroid (radius 16) at the given position. -/
def sampleRock (x y : ℚ) : Asteroid :=
  TriangleAsteroid
    { size := Size.SMALL, position := ⟨x, y⟩, velocity := ⟨0, 125⟩, rotationSpeed := 50,
      rotation := 0 }

/-- A sample state: a new game with the sample special projectile and four small asteroids,
the first and the third of which are within reach of the projectile (distances 0 and 10,
below 18 + 16), the second and the fourth far from it. -/
def sampleBurst : Game :=
  { Game.initial 256 1 with
    projectiles := [sampleSpecial],
    asteroids := [sampleRock 600 300, sampleRock 100 100, sampleRock 600 310,
      sampleRock 1000 700] }

/-- A sample laser projectile in the middle of the screen. -/
def sampleShot : Projectile := ⟨⟨600, 300⟩, ⟨0, -720⟩, 20, WeaponType.LASER⟩

/-- A sample state: a new game with the sample laser projectile and three small asteroids,
the first far from the projectile, the second and the third within its reach. -/
def sampleVolley : Game :=
  { Game.initial 256 1 with
    projectiles := [sampleShot],
    asteroids := [sampleRock 100 100, sampleRock 600 300, sampleRock 600 310] }

/-- The sample burst after the special projectile has destroyed the asteroid at index 0. -/
def sampleBurstOne : Game := (destroyAsteroid sampleInit sampleBurst 0 0 sampleSpecial false).1

/-- The sample burst after the special projectile has then destroyed the asteroid at
index 1 of the remaining collection. -/
def sampleBurstTwo : Game :=
  (destroyAsteroid sampleInit sampleBurstOne 0 1 sampleSpecial false).1

/-- A sample frame input: the fire key held for 1/22 s. -/
def loadInput : Input := { idleInput with dt := 1 / 22, keySpace := true }

/-- A sample frame input: the fire key released and the weapon-switch key pressed. -/
def switchInput : Input := { idleInput with keyTab := true }

/-- A new game after one frame with `loadInput`: the laser has not fired (its interval is
1/18 s) and `shotTimer` holds 1/22 s. -/
def sampleLoaded : Game := { Game.initial 256 1 with shotTimer := 1 / 22, spawnTimer := 1 / 22 }

/-- The state after a further frame with `switchInput`, right after the switch from the
laser to the bullet weapon with the fire key released: `shotTimer` still holds 1/22 s,
which is the bullet interval. -/
def sampleSwitched : Game :=
  { Game.initial 256 1 with
    currentWeapon := WeaponType.BULLET, shotTimer := 1 / 22, spawnTimer := 1 / 22 + 1 / 60 }

/-- A sample state after the same switch with 1/20 s in `shotTimer`, more than the bullet
interval 1/22 s. -/
def sampleOverdue : Game :=
  { Game.initial 256 1 with currentWeapon := WeaponType.BULLET, shotTimer := 1 / 20 }

/-- The overdue sample state with the special weapon ready. -/
def sampleCharged : Game :=
  { sampleOverdue with specialReady := true, specialCharge := 10 }

/-- The sample state with one healthpack in stock. -/
def samplePack : Game := { sampleDuel with healthpacks := 1 }

/-- A sample frame input with the healthpack key pressed. -/
def packInput : Input := { idleInput with keyH := true }

/-- The shot timer is non-negative and the ship has the fire rates that its constructor
sets. -/
def Game.timerInv (g : Game) : Prop :=
  0 ≤ g.shotTimer ∧ g.player.fireRateLaser = 18 ∧ g.player.fireRateBullet = 22

/-! ## Theorems -/

/-- C4 (as amended): the contact damage `GetDamage()` of every asteroid is
`baseDamage * sizeClass`; for the standard shapes that is 5, 10 or 15 times a size class
in {1, 2, 4}, and for the Big asteroid, whose base damage is 30 and whose size class is
`LARGE = 4`, it is 120; a live ship in contact with an asteroid takes that damage. -/
theorem C4_contact_damage (r : AsteroidInit) :
    (TriangleAsteroid r).GetDamage = 5 * r.size.toInt ∧
    (SquareAsteroid r).GetDamage = 10 * r.size.toInt ∧
    (PentagonAsteroid r).GetDamage = 15 * r.size.toInt ∧
    (r.size.toInt = 1 ∨ r.size.toInt = 2 ∨ r.size.toInt = 4) ∧
    (BigAsteroid r).baseDamage = 30 ∧
    (BigAsteroid r).GetSize = 4 ∧
    (BigAsteroid r).GetDamage = 120 ∧
    (∀ (dt : ℚ) (s : Ship) (a : Asteroid), s.IsAlive = true → overlapsShip s a = true →
      (remove_collision dt s a).1 = s.TakeDamage a.GetDamage) := by
  refine ⟨rfl, rfl, rfl, ?_, rfl, rfl, rfl, ?_⟩
  · cases r.size <;> simp [Size.toInt]
  · intro dt s a h1 h2
    simp [remove_collision, h1, h2]

/-- C4 (counterexample): the contact damage of a Big asteroid is 120, which is not its
flat base damage 30. -/
theorem C4_big_damage_not_flat :
    (BigAsteroid sampleInit).GetDamage = 120 ∧
    (BigAsteroid sampleInit).baseDamage = 30 ∧
    (BigAsteroid sampleInit).GetDamage ≠ (BigAsteroid sampleInit).baseDamage := by
  decide

/-- C5 (what the code does): one iteration of the shot loop appends 4 projectiles when
the weapon is PLASMA and 2 otherwise, one more than the 3 and 1 of the claim, because of
the unconditional `push_back` after the `if`/`else`. -/
theorem C5_projectiles_per_shot (interval : ℚ) (g : Game) :
    (shotBody interval g).projectiles.length =
      g.projectiles.length + (if g.currentWeapon = WeaponType.PLASMA then 4 else 2) := by
  unfold shotBody shotProjectiles
  split_ifs <;> simp_all

/-- C6 (as amended): the restart command on a state whose ship is not alive gives a new
ship, alive with 100 hit points, empties the asteroid and projectile collections and sets
`spawnTimer` to 0 with a new random `spawnInterval`; the progression counters
`healthpacks`, `specialCharge`, `destroyedObstacles`, `destroyedAsteroids` and the flags,
`gameEnded` among them, keep their values. -/
theorem C6_restart (g : Game) (i : Input) (hdead : g.player.IsAlive = false)
    (hkey : i.keyR = true) :
    (restart g i).player = PlayerShip i.textureWidth ∧
    (restart g i).player.IsAlive = true ∧
    (restart g i).player.GetHP = 100 ∧
    (restart g i).asteroids = [] ∧
    (restart g i).projectiles = [] ∧
    (restart g i).spawnTimer = 0 ∧
    (restart g i).spawnInterval = i.restartInterval ∧
    (restart g i).healthpacks = g.healthpacks ∧
    (restart g i).specialCharge = g.specialCharge ∧
    (restart g i).destroyedObstacles = g.destroyedObstacles ∧
    (restart g i).destroyedAsteroids = g.destroyedAsteroids ∧
    (restart g i).specialReady = g.specialReady ∧
    (restart g i).bigAsteroidSpawned = g.bigAsteroidSpawned ∧
    (restart g i).usedHealthpack = g.usedHealthpack ∧
    (restart g i).usedSpecial = g.usedSpecial ∧
    (restart g i).gameEnded = g.gameEnded := by
  have hd : g.player.alive = false := hdead
  simp [restart, hd, hkey, PlayerShip, Ship.IsAlive, Ship.GetHP]

/-- C6 (witness): the restart of the sample wreck. -/
theorem C6_restart_witness :
    (restart sampleWreck { idleInput with keyR := true }).player.GetHP = 100 ∧
    (restart sampleWreck { idleInput with keyR := true }).healthpacks = sampleWreck.healthpacks :=
  have h := C6_restart sampleWreck { idleInput with keyR := true } rfl rfl
  ⟨h.2.2.1, h.2.2.2.2.2.2.2.1⟩

/-- C6 (counterexample): after the restart of the sample wreck the four progression
counters still have their values 2, 7, 3 and 18; none is reset to 0. -/
theorem C6_restart_keeps_counters :
    sampleWreck.player.IsAlive = false ∧
    (restart sampleWreck { idleInput with keyR := true }).healthpacks = 2 ∧
    (restart sampleWreck { idleInput with keyR := true }).specialCharge = 7 ∧
    (restart sampleWreck { idleInput with keyR := true }).destroyedObstacles = 3 ∧
    (restart sampleWreck { idleInput with keyR := true }).destroyedAsteroids = 18 := by
  simp [restart, sampleWreck, idleInput, Ship.IsAlive, Game.initial]

/-- The contact damage of a constructed asteroid lies between 1 and 120. -/
theorem constructed_damage_bounds (shape : AsteroidShape) (pick : Nat) (r : AsteroidInit) :
    (0 < (MakeAsteroid shape pick r).GetDamage ∧ (MakeAsteroid shape pick r).GetDamage ≤ 120) ∧
    (0 < (BigAsteroid r).GetDamage ∧ (BigAsteroid r).GetDamage ≤ 120) := by
  have hs : r.size.toInt = 1 ∨ r.size.toInt = 2 ∨ r.size.toInt = 4 := by
    cases r.size <;> simp [Size.toInt]
  have h3 : (TriangleAsteroid r).GetDamage = 5 * r.size.toInt := rfl
  have h4 : (SquareAsteroid r).GetDamage = 10 * r.size.toInt := rfl
  have h5 : (PentagonAsteroid r).GetDamage = 15 * r.size.toInt := rfl
  have hb : (BigAsteroid r).GetDamage = 120 := rfl
  refine ⟨?_, by omega⟩
  unfold MakeAsteroid
  split
  · omega
  · omega
  · omega
  · split <;> omega

/-- The range of the hit points is kept by `TakeDamage` with a damage between 1 and 120. -/
theorem TakeDamage_hpInRange (s : Ship) (d : Int) (hd : 0 < d ∧ d ≤ 120)
    (h : s.hpInRange) : (s.TakeDamage d).hpInRange := by
  unfold Ship.hpInRange at *
  unfold Ship.TakeDamage
  cases ha : s.alive
  · simpa [ha] using h
  · have hpos : 0 < s.hp := h.2.2.1 ha
    by_cases hle : s.hp - d ≤ 0
    · simp [hle]
      omega
    · simp [hle, ha]
      omega

/-- The range of the hit points is kept by the healthpack statement. -/
theorem useHealthpack_hpInRange (g : Game) (i : Input) (h : g.player.hpInRange) :
    (useHealthpack g i).player.hpInRange := by
  unfold useHealthpack
  split
  · rename_i hc
    simp only [Bool.and_eq_true, Ship.IsAlive, decide_eq_true_eq] at hc
    unfold Ship.hpInRange at *
    have hpos : 0 < g.player.hp := h.2.2.1 hc.1.1
    simp only [Ship.SetHP, Ship.GetHP]
    split_ifs <;> simp [hc.1.1]
    all_goals omega
  · exact h

/-- A property kept by every hit is kept by the asteroid loop. -/
theorem asteroidScan_preserves (P : Game → Prop) (bigInit : AsteroidInit)
    (hhit : ∀ (g : Game) (pit ait : Nat) (p : Projectile) (hlt : ait < g.asteroids.length),
      P g → P (hitAsteroid bigInit g pit ait p g.asteroids[ait]).1)
    (pit : Nat) (g : Game) (ait : Nat) (g1 : Game) (removed : Bool)
    (h : asteroidScan bigInit pit g ait = some (g1, removed)) (hP : P g) : P g1 := by
  induction g, ait using asteroidScan.induct bigInit pit with
  | case1 g =>
    rw [asteroidScan_end] at h
    simp only [Option.some.injEq, Prod.mk.injEq] at h
    rw [← h.1]
    exact hP
  | case2 g ait hne hlt hp =>
    rw [asteroidScan] at h
    simp [hne, hlt, hp] at h
  | case3 g ait hne hlt p hp hov g2 rem hr =>
    rw [asteroidScan_hit_break bigInit pit g ait p g2 rem hlt hp hov hr] at h
    simp only [Option.some.injEq, Prod.mk.injEq] at h
    have := hhit g pit ait p hlt hP
    rw [hr] at this
    rw [← h.1]
    exact this
  | case4 g ait hne hlt p hp hov g2 rem hr ih =>
    rw [asteroidScan_hit_continue bigInit pit g ait p g2 rem hlt hp hov hr] at h
    have := hhit g pit ait p hlt hP
    rw [hr] at this
    exact ih h this
  | case5 g ait hne hlt p hp hov ih =>
    rw [asteroidScan_miss bigInit pit g ait p hlt hp (by simpa using hov)] at h
    exact ih h hP
  | case6 g ait hne hlt =>
    rw [asteroidScan] at h
    simp [hne, hlt] at h

/-- A property kept by every hit is kept by the projectile loop. -/
theorem collisions_preserves (P : Game → Prop) (bigInit : AsteroidInit)
    (hhit : ∀ (g : Game) (pit ait : Nat) (p : Projectile) (hlt : ait < g.asteroids.length),
      P g → P (hitAsteroid bigInit g pit ait p g.asteroids[ait]).1)
    (g : Game) (pit : Nat) (g1 : Game)
    (h : collisions bigInit g pit = some g1) (hP : P g) : P g1 := by
  induction g, pit using collisions.induct bigInit with
  | case1 g =>
    rw [collisions] at h
    simp only [if_true, Option.some.injEq] at h
    rw [← h]
    exact hP
  | case2 g pit hne hlt hs =>
    rw [collisions] at h
    simp only [hne, hlt, if_false, if_true] at h
    split at h
    · simp at h
    · rename_i heq
      rw [hs] at heq
      simp at heq
    · rename_i heq
      rw [hs] at heq
      simp at heq
  | case3 g pit hne hlt g2 hs ih =>
    rw [collisions] at h
    simp only [hne, hlt, if_false, if_true] at h
    split at h
    · simp at h
    · rename_i g3 heq
      have h3 : g3 = g2 := by
        rw [hs] at heq
        simpa using heq.symm
      subst h3
      exact ih h (asteroidScan_preserves P bigInit hhit pit g 0 g3 true hs hP)
    · rename_i g3 heq
      rw [hs] at heq
      simp at heq
  | case4 g pit hne hlt g2 hs ih =>
    rw [collisions] at h
    simp only [hne, hlt, if_false, if_true] at h
    split at h
    · simp at h
    · rename_i g3 heq
      rw [hs] at heq
      simp at heq
    · rename_i g3 heq
      have h3 : g3 = g2 := by
        rw [hs] at heq
        simpa using heq.symm
      subst h3
      exact ih h (asteroidScan_preserves P bigInit hhit pit g 0 g3 false hs hP)
  | case5 g pit hne hlt =>
    rw [collisions] at h
    simp [hne, hlt] at h

/-- The counters block as one update of the state. -/
theorem countDestroyed_eq (bigInit : AsteroidInit) (g : Game) :
    countDestroyed bigInit g =
      { g with
        destroyedObstacles := if 14 ≤ g.destroyedObstacles then 0 else g.destroyedObstacles + 1,
        healthpacks := if 14 ≤ g.destroyedObstacles then g.healthpacks + 1 else g.healthpacks,
        specialCharge :=
          if g.specialReady = true then g.specialCharge
          else if 9 ≤ g.specialCharge then 10 else g.specialCharge + 1,
        specialReady := g.specialReady || decide (9 ≤ g.specialCharge),
        destroyedAsteroids := g.destroyedAsteroids + 1,
        bigAsteroidSpawned := g.bigAsteroidSpawned || decide (29 ≤ g.destroyedAsteroids),
        asteroids := g.asteroids ++
          (if 29 ≤ g.destroyedAsteroids ∧ g.bigAsteroidSpawned = false then [BigAsteroid bigInit]
           else []) } := by
  unfold countDestroyed
  have e1 : (g.destroyedObstacles + 1 ≥ 15) ↔ 14 ≤ g.destroyedObstacles := by omega
  have e2 : (g.specialCharge + 1 ≥ 10) ↔ 9 ≤ g.specialCharge := by omega
  have e3 : (g.destroyedAsteroids + 1 ≥ 30) ↔ 29 ≤ g.destroyedAsteroids := by omega
  by_cases h1 : 14 ≤ g.destroyedObstacles <;> by_cases h2 : g.specialReady = true <;>
    by_cases h3 : 9 ≤ g.specialCharge <;> by_cases h4 : 29 ≤ g.destroyedAsteroids <;>
    by_cases h5 : g.bigAsteroidSpawned = true <;>
    simp [e1, e2, e3, h1, h2, h3, h4, h5]

/-- A destruction as one update of the state. -/
theorem destroyAsteroid_eq (bigInit : AsteroidInit) (g : Game) (pit ait : Nat)
    (p : Projectile) (big : Bool) :
    destroyAsteroid bigInit g pit ait p big =
      ({ g with
        gameEnded := g.gameEnded || (big && !g.usedHealthpack && !g.usedSpecial),
        projectiles := if p.consumable = true then g.projectiles.eraseIdx pit else g.projectiles,
        destroyedObstacles := if 14 ≤ g.destroyedObstacles then 0 else g.destroyedObstacles + 1,
        healthpacks := if 14 ≤ g.destroyedObstacles then g.healthpacks + 1 else g.healthpacks,
        specialCharge :=
          if g.specialReady = true then g.specialCharge
          else if 9 ≤ g.specialCharge then 10 else g.specialCharge + 1,
        specialReady := g.specialReady || decide (9 ≤ g.specialCharge),
        destroyedAsteroids := g.destroyedAsteroids + 1,
        bigAsteroidSpawned := g.bigAsteroidSpawned || decide (29 ≤ g.destroyedAsteroids),
        asteroids := g.asteroids.eraseIdx ait ++
          (if 29 ≤ g.destroyedAsteroids ∧ g.bigAsteroidSpawned = false then [BigAsteroid bigInit]
           else []) }, p.consumable) := by
  unfold destroyAsteroid
  simp only [countDestroyed_eq]
  by_cases h1 : (big && !g.usedHealthpack && !g.usedSpecial) = true <;>
    by_cases h2 : p.consumable = true <;> simp [h1, h2]

/-- A property kept by the body of the shot loop is kept by the loop. -/
theorem shotLoop_preserves (P : Game → Prop) (interval : ℚ)
    (hbody : ∀ g : Game, P g → P (shotBody interval g))
    (g : Game) (n : Nat) (g1 : Game) (m : Nat)
    (h : shotLoop interval g n = some (g1, m)) (hP : P g) : P g1 := by
  induction g, n using shotLoop.induct interval with
  | case1 g n hge hpos ih =>
    rw [shotLoop] at h
    simp only [hge, hpos, if_true] at h
    exact ih h (hbody g hP)
  | case2 g n hge hpos =>
    rw [shotLoop] at h
    simp [hge, hpos] at h
  | case3 g n hlt =>
    rw [shotLoop] at h
    simp only [hlt, if_false, Option.some.injEq, Prod.mk.injEq] at h
    rw [← h.1]
    exact hP

/-- A property kept by every statement of the frame is kept by the frame. -/
theorem frame_preserves (P : Game → Prop)
    (htick : ∀ (g : Game) (dt : ℚ), P g → P (tick g dt))
    (hplayer : ∀ (g : Game) (i : Input), P g → P (updatePlayer g i))
    (hrestart : ∀ (g : Game) (i : Input), P g → P (restart g i))
    (hcontrols : ∀ (g : Game) (i : Input), P g → P (controls g i))
    (htimer : ∀ (g : Game) (dt : ℚ), P g → P { g with shotTimer := g.shotTimer + dt })
    (hbody : ∀ (g : Game) (interval : ℚ), P g → P (shotBody interval g))
    (hpack : ∀ (g : Game) (i : Input), P g → P (useHealthpack g i))
    (hspecial : ∀ (g : Game) (i : Input), P g → P (specialShot g i))
    (hspawn : ∀ (g : Game) (i : Input), P g → P (spawn g i))
    (hproj : ∀ (g : Game) (dt : ℚ), P g → P (updateProjectiles g dt))
    (hhit : ∀ (bigInit : AsteroidInit) (g : Game) (pit ait : Nat) (p : Projectile)
      (hlt : ait < g.asteroids.length),
      P g → P (hitAsteroid bigInit g pit ait p g.asteroids[ait]).1)
    (hship : ∀ (g : Game) (dt : ℚ), P g → P (shipCollisions g dt))
    (g : Game) (i : Input) (g1 : Game) (n : Nat)
    (h : frame g i = some (g1, n)) (hP : P g) : P g1 := by
  unfold frame at h
  split at h
  · simp only [Option.some.injEq, Prod.mk.injEq] at h
    rw [← h.1]
    exact htick g i.dt hP
  · split at h
    · simp at h
    · rename_i g2 n2 hshoot
      split at h
      · simp at h
      · rename_i g3 hcoll
        simp only [Option.some.injEq, Prod.mk.injEq] at h
        rw [← h.1]
        apply hship
        refine collisions_preserves P i.bigInit (hhit i.bigInit) _ 0 g3 hcoll ?_
        apply hproj
        apply hspawn
        unfold shooting at hshoot
        split at hshoot
        · simp at hshoot
        · rename_i g4 n4 hfire
          simp only [Option.some.injEq, Prod.mk.injEq] at hshoot
          rw [← hshoot.1]
          apply hspecial
          apply hpack
          have hpre : P (controls (restart (updatePlayer (tick g i.dt) i) i) i) :=
            hcontrols _ i (hrestart _ i (hplayer _ i (htick g i.dt hP)))
          unfold fire at hfire
          split at hfire
          · exact shotLoop_preserves P _ (fun g0 h0 => hbody g0 _ h0) _ 0 g4 n4 hfire
              (htimer _ i.dt hpre)
          · simp only [Option.some.injEq, Prod.mk.injEq] at hfire
            rw [← hfire.1]
            exact hpre

/-- A hit on a Big asteroid that leaves it hit points: the asteroid stays, with its hit
points reduced; the projectile is erased unless it is the special one; the loop is left. -/
theorem hitAsteroid_survive (bigInit : AsteroidInit) (g : Game) (pit ait : Nat)
    (p : Projectile) (a : Asteroid) (hbig : a.isBig = true) (hpos : 0 < a.hp - p.GetDamage) :
    hitAsteroid bigInit g pit ait p a =
      ({ g with
          asteroids := g.asteroids.set ait { a with hp := a.hp - p.GetDamage },
          projectiles := if p.consumable = true then g.projectiles.eraseIdx pit
                         else g.projectiles },
        p.consumable, true) := by
  unfold hitAsteroid
  by_cases hc : p.consumable = true <;> simp [hbig, hpos, hc]

/-- A hit on a Big asteroid that leaves it no hit points is a destruction, in the state in
which the hit points have been reduced. -/
theorem hitAsteroid_destroy_big (bigInit : AsteroidInit) (g : Game) (pit ait : Nat)
    (p : Projectile) (a : Asteroid) (hbig : a.isBig = true) (hle : a.hp - p.GetDamage ≤ 0) :
    hitAsteroid bigInit g pit ait p a =
      ((destroyAsteroid bigInit
          { g with asteroids := g.asteroids.set ait { a with hp := a.hp - p.GetDamage } }
          pit ait p true).1, p.consumable, p.consumable) := by
  unfold hitAsteroid
  have hn : ¬ 0 < a.hp - p.GetDamage := by omega
  simp [hbig, hn, hle, destroyAsteroid_eq]

/-- A hit on a standard asteroid is a destruction. -/
theorem hitAsteroid_destroy_standard (bigInit : AsteroidInit) (g : Game) (pit ait : Nat)
    (p : Projectile) (a : Asteroid) (hbig : a.isBig = false) :
    hitAsteroid bigInit g pit ait p a =
      ((destroyAsteroid bigInit g pit ait p false).1, p.consumable, p.consumable) := by
  unfold hitAsteroid
  simp [hbig, destroyAsteroid_eq]

/-- The progression invariant is kept by a destruction. -/
theorem destroyAsteroid_progressInv (bigInit : AsteroidInit) (g : Game) (pit ait : Nat)
    (p : Projectile) (big : Bool) (h : g.progressInv) :
    (destroyAsteroid bigInit g pit ait p big).1.progressInv := by
  rw [destroyAsteroid_eq]
  unfold Game.progressInv at *
  obtain ⟨⟨h1, h2⟩, ⟨h3, h4⟩, h5, h6, h7, h8⟩ := h
  dsimp only
  refine ⟨⟨?_, ?_⟩, ⟨?_, ?_⟩, ?_, ?_, ?_, ?_⟩
  · split_ifs <;> omega
  · split_ifs <;> omega
  · split_ifs <;> omega
  · split_ifs <;> omega
  · cases hr : g.specialReady
    · have : g.specialCharge ≠ 10 := fun hc => by simp [h5.2 hc] at hr
      simp only [Bool.false_or, decide_eq_true_eq, Bool.false_eq_true, if_false]
      split_ifs <;> omega
    · have : g.specialCharge = 10 := h5.1 hr
      simp [this]
  · omega
  · cases hb : g.bigAsteroidSpawned
    · have : ¬ 30 ≤ g.destroyedAsteroids := fun hc => by simp [h7.2 hc] at hb
      simp only [Bool.false_or, decide_eq_true_eq]
      omega
    · have : 30 ≤ g.destroyedAsteroids := h7.1 hb
      simp only [Bool.true_or, true_iff]
      omega
  · split_ifs <;> omega

/-- The progression invariant is kept by every hit. -/
theorem hitAsteroid_progressInv (bigInit : AsteroidInit) (g : Game) (pit ait : Nat)
    (p : Projectile) (a : Asteroid) (h : g.progressInv) :
    (hitAsteroid bigInit g pit ait p a).1.progressInv := by
  cases hbig : a.isBig
  · rw [hitAsteroid_destroy_standard bigInit g pit ait p a hbig]
    exact destroyAsteroid_progressInv bigInit g pit ait p false h
  · by_cases hpos : 0 < a.hp - p.GetDamage
    · rw [hitAsteroid_survive bigInit g pit ait p a hbig hpos]
      exact h
    · rw [hitAsteroid_destroy_big bigInit g pit ait p a hbig (by omega)]
      exact destroyAsteroid_progressInv bigInit _ pit ait p true h

/-- The progression invariant is kept by the healthpack statement. -/
theorem useHealthpack_progressInv (g : Game) (i : Input) (h : g.progressInv) :
    (useHealthpack g i).progressInv := by
  unfold useHealthpack
  split
  · rename_i hc
    simp only [Bool.and_eq_true, decide_eq_true_eq] at hc
    unfold Game.progressInv at *
    dsimp only
    refine ⟨h.1, h.2.1, h.2.2.1, h.2.2.2.1, h.2.2.2.2.1, ?_⟩
    omega
  · exact h

/-- The progression invariant is kept by the special shot and by the reduction of
`shotTimer`. -/
theorem specialShot_progressInv (g : Game) (i : Input) (h : g.progressInv) :
    (specialShot g i).progressInv := by
  unfold specialShot
  split
  · unfold Game.progressInv at *
    dsimp only
    refine ⟨h.1, by omega, by simp, h.2.2.2.1, h.2.2.2.2.1, h.2.2.2.2.2⟩
  · dsimp only
    split
    · exact h
    · exact h

/-- The progression invariant holds in every state of a run. -/
theorem reachable_progressInv (g : Game) (h : Reachable g) : g.progressInv := by
  induction h with
  | initial w si => simp [Game.progressInv, Game.initial]
  | step g i g1 n _ hf ih =>
    refine frame_preserves Game.progressInv ?_ ?_ ?_ ?_ ?_ ?_ ?_ ?_ ?_ ?_ ?_ ?_ g i g1 n hf ih
    · intro g dt h; exact h
    · intro g i h; exact h
    · intro g i h
      unfold restart
      split
      · exact h
      · exact h
    · intro g i h; exact h
    · intro g dt h; exact h
    · intro g interval h; exact h
    · exact useHealthpack_progressInv
    · exact specialShot_progressInv
    · intro g i h
      unfold spawn
      split
      · exact h
      · exact h
    · intro g dt h; exact h
    · intro bigInit g pit ait p hlt h
      exact hitAsteroid_progressInv bigInit g pit ait p _ h
    · intro g dt h; exact h

/-- The healthpack statement, seen through `usedHealthpack`, `usedSpecial` and `gameEnded`:
all it can do to them is to set `usedHealthpack`. -/
theorem useHealthpack_flags (Q : Bool → Bool → Bool → Prop)
    (hpack : ∀ h s e, Q h s e → Q true s e) (g : Game) (i : Input)
    (hQ : Q g.usedHealthpack g.usedSpecial g.gameEnded) :
    Q (useHealthpack g i).usedHealthpack (useHealthpack g i).usedSpecial
      (useHealthpack g i).gameEnded := by
  unfold useHealthpack
  split
  · exact hpack _ _ _ hQ
  · exact hQ

/-- The special-shot statement, seen through `usedHealthpack`, `usedSpecial` and
`gameEnded`: all it can do to them is to set `usedSpecial`. -/
theorem specialShot_flags (Q : Bool → Bool → Bool → Prop)
    (hspec : ∀ h s e, Q h s e → Q h true e) (g : Game) (i : Input)
    (hQ : Q g.usedHealthpack g.usedSpecial g.gameEnded) :
    Q (specialShot g i).usedHealthpack (specialShot g i).usedSpecial
      (specialShot g i).gameEnded := by
  unfold specialShot
  split
  · exact hspec _ _ _ hQ
  · dsimp only
    split
    · exact hQ
    · exact hQ

/-- A hit, seen through `usedHealthpack`, `usedSpecial` and `gameEnded`: all it can do to
them is to set `gameEnded` when both flags are false. -/
theorem hitAsteroid_flags (Q : Bool → Bool → Bool → Prop)
    (hend : ∀ h s e, Q h s e → Q h s (e || (!h && !s)))
    (bigInit : AsteroidInit) (g : Game) (pit ait : Nat) (p : Projectile) (a : Asteroid)
    (hQ : Q g.usedHealthpack g.usedSpecial g.gameEnded) :
    Q (hitAsteroid bigInit g pit ait p a).1.usedHealthpack
      (hitAsteroid bigInit g pit ait p a).1.usedSpecial
      (hitAsteroid bigInit g pit ait p a).1.gameEnded := by
  cases hbig : a.isBig
  · rw [hitAsteroid_destroy_standard bigInit g pit ait p a hbig, destroyAsteroid_eq]
    simpa using hQ
  · by_cases hpos : 0 < a.hp - p.GetDamage
    · rw [hitAsteroid_survive bigInit g pit ait p a hbig hpos]
      exact hQ
    · rw [hitAsteroid_destroy_big bigInit g pit ait p a hbig (by omega), destroyAsteroid_eq]
      simpa using hend _ _ _ hQ

/-- The statements of the frame after the shooting block, seen through `usedHealthpack`,
`usedSpecial` and `gameEnded`. -/
theorem post_flags (Q : Bool → Bool → Bool → Prop)
    (hend : ∀ h s e, Q h s e → Q h s (e || (!h && !s)))
    (g : Game) (i : Input) (g1 : Game)
    (h : collisions i.bigInit (updateProjectiles (spawn g i) i.dt) 0 = some g1)
    (hQ : Q g.usedHealthpack g.usedSpecial g.gameEnded) :
    Q (shipCollisions g1 i.dt).usedHealthpack (shipCollisions g1 i.dt).usedSpecial
      (shipCollisions g1 i.dt).gameEnded := by
  have h1 : Q (updateProjectiles (spawn g i) i.dt).usedHealthpack
      (updateProjectiles (spawn g i) i.dt).usedSpecial
      (updateProjectiles (spawn g i) i.dt).gameEnded := by
    unfold updateProjectiles spawn
    split
    · exact hQ
    · exact hQ
  exact collisions_preserves (fun s => Q s.usedHealthpack s.usedSpecial s.gameEnded) i.bigInit
    (fun s pit ait p _ hs => hitAsteroid_flags Q hend i.bigInit s pit ait p _ hs) _ 0 g1 h h1

/-- A frame, seen through `usedHealthpack`, `usedSpecial` and `gameEnded`: all it can do to
them is to set `usedHealthpack`, to set `usedSpecial`, and to set `gameEnded` when both
flags are false. -/
theorem frame_flags (Q : Bool → Bool → Bool → Prop)
    (hpack : ∀ h s e, Q h s e → Q true s e)
    (hspec : ∀ h s e, Q h s e → Q h true e)
    (hend : ∀ h s e, Q h s e → Q h s (e || (!h && !s)))
    (g : Game) (i : Input) (g1 : Game) (n : Nat) (hf : frame g i = some (g1, n))
    (hQ : Q g.usedHealthpack g.usedSpecial g.gameEnded) :
    Q g1.usedHealthpack g1.usedSpecial g1.gameEnded := by
  refine frame_preserves (fun s => Q s.usedHealthpack s.usedSpecial s.gameEnded)
    ?_ ?_ ?_ ?_ ?_ ?_ ?_ ?_ ?_ ?_ ?_ ?_ g i g1 n hf hQ
  · intro g dt h; exact h
  · intro g i h; exact h
  · intro g i h
    unfold restart
    split
    · exact h
    · exact h
  · intro g i h; exact h
  · intro g dt h; exact h
  · intro g interval h; exact h
  · intro g i h; exact useHealthpack_flags Q hpack g i h
  · intro g i h; exact specialShot_flags Q hspec g i h
  · intro g i h
    unfold spawn
    split
    · exact h
    · exact h
  · intro g dt h; exact h
  · intro bigInit g pit ait p hlt h
    exact hitAsteroid_flags Q hend bigInit g pit ait p _ h
  · intro g dt h; exact h

/-- A run, seen through `usedHealthpack`, `usedSpecial` and `gameEnded`. -/
theorem Run_flags (Q : Bool → Bool → Bool → Prop)
    (hpack : ∀ h s e, Q h s e → Q true s e)
    (hspec : ∀ h s e, Q h s e → Q h true e)
    (hend : ∀ h s e, Q h s e → Q h s (e || (!h && !s)))
    (inputs : List Input) (g g1 : Game) (n : Nat) (hrun : Run g inputs = some (g1, n))
    (hQ : Q g.usedHealthpack g.usedSpecial g.gameEnded) :
    Q g1.usedHealthpack g1.usedSpecial g1.gameEnded := by
  induction inputs generalizing g n with
  | nil =>
    simp only [Run, Option.some.injEq, Prod.mk.injEq] at hrun
    rw [← hrun.1]
    exact hQ
  | cons i rest ih =>
    simp only [Run] at hrun
    split at hrun
    · simp at hrun
    · rename_i g2 n2 hf
      split at hrun
      · simp at hrun
      · rename_i g3 m hrest
        simp only [Option.some.injEq, Prod.mk.injEq] at hrun
        rw [hrun.1] at hrest
        exact ih g2 m hrest (frame_flags Q hpack hspec hend g i g2 n2 hf hQ)

/-- The firing statement changes neither the ship, nor the stock of healthpacks, nor the
readiness of the special weapon, nor the fields of the loss condition. -/
theorem fire_keeps (g : Game) (i : Input) (g1 : Game) (n : Nat)
    (h : fire g i = some (g1, n)) :
    g1.player = g.player ∧ g1.healthpacks = g.healthpacks ∧
    g1.specialReady = g.specialReady ∧ g1.usedHealthpack = g.usedHealthpack ∧
    g1.usedSpecial = g.usedSpecial ∧ g1.gameEnded = g.gameEnded := by
  unfold fire at h
  split at h
  · exact shotLoop_preserves
      (fun s => s.player = g.player ∧ s.healthpacks = g.healthpacks ∧
        s.specialReady = g.specialReady ∧ s.usedHealthpack = g.usedHealthpack ∧
        s.usedSpecial = g.usedSpecial ∧ s.gameEnded = g.gameEnded)
      _ (fun s hs => hs) _ 0 g1 n h ⟨rfl, rfl, rfl, rfl, rfl, rfl⟩
  · simp only [Option.some.injEq, Prod.mk.injEq] at h
    rw [← h.1]
    exact ⟨rfl, rfl, rfl, rfl, rfl, rfl⟩

/-- The sections of a frame that starts with `gameEnded` false: the statements before the
shooting block, the firing statement, the healthpack, the special shot, and then the spawn,
the projectile update, the projectile-asteroid collisions and the ship collisions. -/
theorem frame_sections (g : Game) (i : Input) (g1 : Game) (n : Nat)
    (hge : g.gameEnded = false) (h : frame g i = some (g1, n)) :
    ∃ s1 s3 : Game,
      fire (controls (restart (updatePlayer (tick g i.dt) i) i) i) i = some (s1, n) ∧
      collisions i.bigInit
        (updateProjectiles (spawn (specialShot (useHealthpack s1 i) i) i) i.dt) 0 = some s3 ∧
      g1 = shipCollisions s3 i.dt := by
  unfold frame at h
  rw [if_neg (by simp [tick, hge])] at h
  split at h
  · simp at h
  · rename_i g2 n2 hshoot
    split at h
    · simp at h
    · rename_i g3 hcoll
      simp only [Option.some.injEq, Prod.mk.injEq] at h
      unfold shooting at hshoot
      split at hshoot
      · simp at hshoot
      · rename_i g4 n4 hfire
        simp only [Option.some.injEq, Prod.mk.injEq] at hshoot
        refine ⟨g4, g3, ?_, ?_, h.1.symm⟩
        · rw [hfire, hshoot.2, h.2]
        · rw [hshoot.1]
          exact hcoll

/-- The statements of the frame before the shooting block leave `gameEnded`. -/
theorem prelude_gameEnded (g : Game) (i : Input) :
    (controls (restart (updatePlayer (tick g i.dt) i) i) i).gameEnded = g.gameEnded := by
  show (restart (updatePlayer (tick g i.dt) i) i).gameEnded = g.gameEnded
  unfold restart
  split <;> rfl

/-- C1: a projectile hit that brings the hit points of the Big asteroid to 0 or below sets
`gameEnded` when neither a healthpack nor the special weapon has been used, and leaves it
unchanged when one of them has; no other step of the frame changes `gameEnded`: not a hit
that the Big asteroid survives, not the destruction of a standard asteroid, not the ship
collisions, the firing, the healthpack, the special shot, the restart, nor the other
statements of the frame.  The flags: a healthpack that is used sets `usedHealthpack`, a
special shot that is fired sets `usedSpecial`, and no hit changes either flag; a frame that
starts with `gameEnded` false and in which a healthpack is used (or the special weapon is
fired) ends with the flag set and `gameEnded` false, and so does every run that follows
it, whatever is destroyed; in every run a flag that is set stays set, and with a flag set
and `gameEnded` false at its start `gameEnded` is false at its end. -/
theorem C1_loss_condition (bigInit : AsteroidInit) (g : Game) (pit ait : Nat) (p : Projectile)
    (a : Asteroid) (i : Input) :
    (a.isBig = true → a.hp - p.GetDamage ≤ 0 →
      g.usedHealthpack = false → g.usedSpecial = false →
      (hitAsteroid bigInit g pit ait p a).1.gameEnded = true) ∧
    (a.isBig = true → a.hp - p.GetDamage ≤ 0 →
      (g.usedHealthpack = true ∨ g.usedSpecial = true) →
      (hitAsteroid bigInit g pit ait p a).1.gameEnded = g.gameEnded) ∧
    (a.isBig = true → 0 < a.hp - p.GetDamage →
      (hitAsteroid bigInit g pit ait p a).1.gameEnded = g.gameEnded) ∧
    (a.isBig = false → (hitAsteroid bigInit g pit ait p a).1.gameEnded = g.gameEnded) ∧
    (shipCollisions g i.dt).gameEnded = g.gameEnded ∧
    (∀ (g1 : Game) (n : Nat), fire g i = some (g1, n) → g1.gameEnded = g.gameEnded) ∧
    (useHealthpack g i).gameEnded = g.gameEnded ∧
    (specialShot g i).gameEnded = g.gameEnded ∧
    (restart g i).gameEnded = g.gameEnded ∧
    (updatePlayer g i).gameEnded = g.gameEnded ∧
    (controls g i).gameEnded = g.gameEnded ∧
    (spawn g i).gameEnded = g.gameEnded ∧
    (updateProjectiles g i.dt).gameEnded = g.gameEnded ∧
    (g.player.IsAlive = true → 0 < g.healthpacks → i.keyH = true →
      (useHealthpack g i).usedHealthpack = true) ∧
    (g.player.IsAlive = true → g.specialReady = true → i.keyR = true →
      (specialShot g i).usedSpecial = true) ∧
    ((hitAsteroid bigInit g pit ait p a).1.usedHealthpack = g.usedHealthpack ∧
      (hitAsteroid bigInit g pit ait p a).1.usedSpecial = g.usedSpecial) ∧
    (∀ (g1 : Game) (n : Nat), frame g i = some (g1, n) → g.gameEnded = false →
      (controls (restart (updatePlayer (tick g i.dt) i) i) i).player.IsAlive = true →
      0 < (controls (restart (updatePlayer (tick g i.dt) i) i) i).healthpacks →
      i.keyH = true →
      g1.usedHealthpack = true ∧ g1.gameEnded = false ∧
      ∀ (rest : List Input) (g2 : Game) (N : Nat), Run g1 rest = some (g2, N) →
        g2.usedHealthpack = true ∧ g2.gameEnded = false) ∧
    (∀ (g1 : Game) (n : Nat), frame g i = some (g1, n) → g.gameEnded = false →
      (controls (restart (updatePlayer (tick g i.dt) i) i) i).player.IsAlive = true →
      (controls (restart (updatePlayer (tick g i.dt) i) i) i).specialReady = true →
      i.keyR = true →
      g1.usedSpecial = true ∧ g1.gameEnded = false ∧
      ∀ (rest : List Input) (g2 : Game) (N : Nat), Run g1 rest = some (g2, N) →
        g2.usedSpecial = true ∧ g2.gameEnded = false) ∧
    (∀ (inputs : List Input) (g1 : Game) (N : Nat), Run g inputs = some (g1, N) →
      (g.usedHealthpack = true → g1.usedHealthpack = true) ∧
      (g.usedSpecial = true → g1.usedSpecial = true) ∧
      ((g.usedHealthpack = true ∨ g.usedSpecial = true) → g.gameEnded = false →
        g1.gameEnded = false)) := by
  refine ⟨?_, ?_, ?_, ?_, rfl, ?_, ?_, ?_, ?_, rfl, rfl, ?_, rfl, ?_, ?_, ?_, ?_, ?_, ?_⟩
  · intro hbig hle h1 h2
    rw [hitAsteroid_destroy_big bigInit g pit ait p a hbig hle, destroyAsteroid_eq]
    simp [h1, h2]
  · intro hbig hle h12
    rw [hitAsteroid_destroy_big bigInit g pit ait p a hbig hle, destroyAsteroid_eq]
    rcases h12 with h | h <;> simp [h]
  · intro hbig hpos
    rw [hitAsteroid_survive bigInit g pit ait p a hbig hpos]
  · intro hbig
    rw [hitAsteroid_destroy_standard bigInit g pit ait p a hbig, destroyAsteroid_eq]
    simp
  · intro g1 n hf
    unfold fire at hf
    split at hf
    · exact shotLoop_preserves (fun s => s.gameEnded = g.gameEnded) _ (fun s hs => hs)
        _ 0 g1 n hf rfl
    · simp only [Option.some.injEq, Prod.mk.injEq] at hf
      rw [← hf.1]
  · unfold useHealthpack
    split <;> rfl
  · unfold specialShot
    split
    · rfl
    · dsimp only
      split <;> rfl
  · unfold restart
    split <;> rfl
  · unfold spawn
    split <;> rfl
  · intro halive hpacks hkey
    unfold useHealthpack
    rw [if_pos (by simp [halive, hpacks, hkey])]
  · intro halive hready hkey
    unfold specialShot
    rw [if_pos (by simp [halive, hready, hkey])]
  · exact hitAsteroid_flags
      (fun h s _ => h = g.usedHealthpack ∧ s = g.usedSpecial) (fun _ _ _ hq => hq)
      bigInit g pit ait p a ⟨rfl, rfl⟩
  · intro g1 n hf hge halive hpacks hkey
    obtain ⟨s1, s3, hfire, hcoll, he⟩ := frame_sections g i g1 n hge hf
    obtain ⟨k1, k2, _, _, _, k6⟩ := fire_keeps _ i s1 n hfire
    have hu : (useHealthpack s1 i).usedHealthpack = true := by
      unfold useHealthpack
      rw [if_pos (by rw [k1, k2]; simp [halive, hpacks, hkey])]
    have hg : (useHealthpack s1 i).gameEnded = false := by
      have h0 : (useHealthpack s1 i).gameEnded = s1.gameEnded := by
        unfold useHealthpack
        split <;> rfl
      rw [h0, k6, prelude_gameEnded, hge]
    have hend : ∀ h s e : Bool, h = true ∧ e = false → h = true ∧ (e || (!h && !s)) = false := by
      intro h s e hq
      simp [hq.1, hq.2]
    have h2 := specialShot_flags (fun h _ e => h = true ∧ e = false) (fun _ _ _ hq => hq)
      (useHealthpack s1 i) i ⟨hu, hg⟩
    have h3 := post_flags (fun h _ e => h = true ∧ e = false) hend _ i s3 hcoll h2
    rw [he]
    refine ⟨h3.1, h3.2, ?_⟩
    intro rest g2 N hrun
    exact Run_flags (fun h _ e => h = true ∧ e = false) (fun _ _ _ hq => ⟨rfl, hq.2⟩)
      (fun _ _ _ hq => hq) hend rest _ g2 N hrun h3
  · intro g1 n hf hge halive hready hkey
    obtain ⟨s1, s3, hfire, hcoll, he⟩ := frame_sections g i g1 n hge hf
    obtain ⟨k1, _, k3, _, _, k6⟩ := fire_keeps _ i s1 n hfire
    have ha : (useHealthpack s1 i).player.IsAlive = true := by
      have h0 : (useHealthpack s1 i).player.IsAlive = s1.player.IsAlive := by
        unfold useHealthpack
        split <;> rfl
      rw [h0, k1, halive]
    have hr : (useHealthpack s1 i).specialReady = true := by
      have h0 : (useHealthpack s1 i).specialReady = s1.specialReady := by
        unfold useHealthpack
        split <;> rfl
      rw [h0, k3, hready]
    have hg : (useHealthpack s1 i).gameEnded = false := by
      have h0 : (useHealthpack s1 i).gameEnded = s1.gameEnded := by
        unfold useHealthpack
        split <;> rfl
      rw [h0, k6, prelude_gameEnded, hge]
    have hend : ∀ h s e : Bool, s = true ∧ e = false → s = true ∧ (e || (!h && !s)) = false := by
      intro h s e hq
      simp [hq.1, hq.2]
    have h2 : (specialShot (useHealthpack s1 i) i).usedSpecial = true ∧
        (specialShot (useHealthpack s1 i) i).gameEnded = false := by
      unfold specialShot
      rw [if_pos (by simp [ha, hr, hkey])]
      exact ⟨rfl, hg⟩
    have h3 := post_flags (fun _ s e => s = true ∧ e = false) hend _ i s3 hcoll h2
    rw [he]
    refine ⟨h3.1, h3.2, ?_⟩
    intro rest g2 N hrun
    exact Run_flags (fun _ s e => s = true ∧ e = false) (fun _ _ _ hq => hq)
      (fun _ _ _ hq => ⟨rfl, hq.2⟩) hend rest _ g2 N hrun h3
  · intro inputs g1 N hrun
    refine ⟨?_, ?_, ?_⟩
    · intro h0
      exact Run_flags (fun h _ _ => h = true) (fun _ _ _ _ => rfl) (fun _ _ _ hq => hq)
        (fun _ _ _ hq => hq) inputs g g1 N hrun h0
    · intro h0
      exact Run_flags (fun _ s _ => s = true) (fun _ _ _ hq => hq) (fun _ _ _ _ => rfl)
        (fun _ _ _ hq => hq) inputs g g1 N hrun h0
    · intro h0 hge
      exact (Run_flags (fun h s e => (h = true ∨ s = true) ∧ e = false)
        (fun _ _ _ hq => ⟨Or.inl rfl, hq.2⟩) (fun _ _ _ hq => ⟨Or.inr rfl, hq.2⟩)
        (fun h s e hq => ⟨hq.1, by rcases hq.1 with h1 | h1 <;> simp [h1, hq.2]⟩)
        inputs g g1 N hrun ⟨h0, hge⟩).2

/-- C1 (witness): on the sample state, with no healthpack and no special used, the laser
that takes the last 20 hit points of the Big asteroid ends the game; on the same state with
a healthpack in stock and used first, the same hit leaves `gameEnded` false. -/
theorem C1_loss_condition_witness :
    (hitAsteroid sampleInit sampleDuel 0 0 sampleLaser sampleBig20).1.gameEnded = true ∧
    (useHealthpack samplePack packInput).usedHealthpack = true ∧
    (hitAsteroid sampleInit (useHealthpack samplePack packInput) 0 0 sampleLaser
      sampleBig20).1.gameEnded = false :=
  ⟨(C1_loss_condition sampleInit sampleDuel 0 0 sampleLaser sampleBig20 idleInput).1
      rfl (by decide) rfl rfl,
   (C1_loss_condition sampleInit samplePack 0 0 sampleLaser sampleBig20
      packInput).2.2.2.2.2.2.2.2.2.2.2.2.2.1 rfl (by decide) rfl,
   ((C1_loss_condition sampleInit (useHealthpack samplePack packInput) 0 0 sampleLaser
      sampleBig20 packInput).2.1 rfl (by decide)
      (Or.inl ((C1_loss_condition sampleInit samplePack 0 0 sampleLaser sampleBig20
        packInput).2.2.2.2.2.2.2.2.2.2.2.2.2.1 rfl (by decide) rfl))).trans
    ((C1_loss_condition sampleInit samplePack 0 0 sampleLaser sampleBig20
      packInput).2.2.2.2.2.2.1.trans rfl)⟩

/-- The fields that a destruction changes, written out. -/
theorem destroy_fields (g : Game) (d : Destruction) :
    (destroy g d).destroyedObstacles =
      (if 14 ≤ g.destroyedObstacles then 0 else g.destroyedObstacles + 1) ∧
    (destroy g d).healthpacks =
      (if 14 ≤ g.destroyedObstacles then g.healthpacks + 1 else g.healthpacks) ∧
    (destroy g d).specialCharge =
      (if g.specialReady = true then g.specialCharge
       else if 9 ≤ g.specialCharge then 10 else g.specialCharge + 1) ∧
    (destroy g d).specialReady = (g.specialReady || decide (9 ≤ g.specialCharge)) ∧
    (destroy g d).destroyedAsteroids = g.destroyedAsteroids + 1 ∧
    (destroy g d).bigAsteroidSpawned =
      (g.bigAsteroidSpawned || decide (29 ≤ g.destroyedAsteroids)) ∧
    (destroy g d).asteroids = g.asteroids.eraseIdx d.ait ++
      (if 29 ≤ g.destroyedAsteroids ∧ g.bigAsteroidSpawned = false then [BigAsteroid d.bigInit]
       else []) := by
  unfold destroy
  rw [destroyAsteroid_eq]
  exact ⟨rfl, rfl, rfl, rfl, rfl, rfl, rfl⟩

/-- The asteroid counter and the Big-asteroid flag after a sequence of destructions, from
any state in which the flag tells whether the counter has reached 30. -/
theorem destroyAll_boss (ds : List Destruction) (g : Game)
    (h0 : 0 ≤ g.destroyedAsteroids)
    (hflag : g.bigAsteroidSpawned = true ↔ 30 ≤ g.destroyedAsteroids) :
    (destroyAll g ds).destroyedAsteroids = g.destroyedAsteroids + ds.length ∧
    ((destroyAll g ds).bigAsteroidSpawned = true ↔ 30 ≤ g.destroyedAsteroids + ds.length) := by
  induction ds generalizing g with
  | nil => simpa [destroyAll] using hflag
  | cons d rest ih =>
    have hf := destroy_fields g d
    have h1 : 0 ≤ (destroy g d).destroyedAsteroids := by rw [hf.2.2.2.2.1]; omega
    have h2 : (destroy g d).bigAsteroidSpawned = true ↔ 30 ≤ (destroy g d).destroyedAsteroids := by
      rw [hf.2.2.2.2.1, hf.2.2.2.2.2.1]
      cases hb : g.bigAsteroidSpawned
      · have : ¬ 30 ≤ g.destroyedAsteroids := fun hc => by simp [hflag.2 hc] at hb
        simp only [Bool.false_or, decide_eq_true_eq]
        omega
      · have : 30 ≤ g.destroyedAsteroids := hflag.1 hb
        simp only [Bool.true_or, true_iff]
        omega
    have := ih (destroy g d) h1 h2
    rw [hf.2.2.2.2.1] at this
    have hcons : destroyAll g (d :: rest) = destroyAll (destroy g d) rest := rfl
    rw [hcons]
    simp only [List.length_cons, Nat.cast_add, Nat.cast_one]
    constructor
    · rw [this.1]; ring
    · rw [this.2]
      constructor <;> intro h <;> omega

/-- C2: in a sequence of destructions that starts with `destroyedAsteroids = 0` and
`bigAsteroidSpawned = false`, the counter is the number of destructions made, the flag is
set exactly from the 30th destruction on, and a destruction appends a Big asteroid to the
asteroid collection exactly when it is the 30th (otherwise it only erases the destroyed
asteroid); in every state of a run the flag is set exactly when the counter is at least 30. -/
theorem C2_boss_trigger (g : Game) (ds : List Destruction) (d : Destruction)
    (h0 : g.destroyedAsteroids = 0) (hflag : g.bigAsteroidSpawned = false) :
    (destroyAll g ds).destroyedAsteroids = ds.length ∧
    ((destroyAll g ds).bigAsteroidSpawned = true ↔ 30 ≤ ds.length) ∧
    (destroy (destroyAll g ds) d).asteroids =
      (destroyAll g ds).asteroids.eraseIdx d.ait ++
        (if ds.length + 1 = 30 then [BigAsteroid d.bigInit] else []) ∧
    (∀ r : Game, Reachable r → (r.bigAsteroidSpawned = true ↔ 30 ≤ r.destroyedAsteroids)) := by
  have hb := destroyAll_boss ds g (by omega) (by rw [hflag, h0]; simp)
  rw [h0] at hb
  simp only [zero_add, Nat.ofNat_le_cast] at hb
  refine ⟨hb.1, hb.2, ?_, fun r hr => (reachable_progressInv r hr).2.2.2.2.1⟩
  rw [(destroy_fields _ d).2.2.2.2.2.2, hb.1]
  congr 1
  by_cases h30 : ds.length + 1 = 30
  · have hn : ¬ 30 ≤ ds.length := by omega
    have hf : (destroyAll g ds).bigAsteroidSpawned = false := by
      cases hx : (destroyAll g ds).bigAsteroidSpawned
      · rfl
      · exact absurd (hb.2.1 hx) hn
    have h29 : (29 : ℤ) ≤ (ds.length : ℤ) := by omega
    simp [h30, hf, h29]
  · simp only [h30, if_false]
    by_cases hlt : ds.length < 29
    · have : ¬ (29 : ℤ) ≤ (ds.length : ℤ) := by omega
      simp [this]
    · have hf : (destroyAll g ds).bigAsteroidSpawned = true := hb.2.2 (by omega)
      simp [hf]

/-- C2 (witness): thirty destructions in a new game set the flag. -/
theorem C2_boss_trigger_witness :
    (destroyAll (Game.initial 256 1) (List.replicate 30 sampleDestruction)).bigAsteroidSpawned
      = true :=
  (C2_boss_trigger (Game.initial 256 1) (List.replicate 30 sampleDestruction)
    sampleDestruction rfl rfl).2.1.2 (by simp)

/-- The obstacle counter and the healthpack stock after a sequence of destructions, from
any state with the counter between 0 and 14. -/
theorem destroyAll_economy (ds : List Destruction) (g : Game)
    (h0 : 0 ≤ g.destroyedObstacles) (h14 : g.destroyedObstacles ≤ 14) :
    (destroyAll g ds).healthpacks = g.healthpacks + (g.destroyedObstacles + ds.length) / 15 ∧
    (destroyAll g ds).destroyedObstacles = (g.destroyedObstacles + ds.length) % 15 := by
  induction ds generalizing g with
  | nil =>
    simp only [destroyAll, List.foldl_nil, List.length_nil, Nat.cast_zero, add_zero]
    omega
  | cons d rest ih =>
    have hf := destroy_fields g d
    have hcons : destroyAll g (d :: rest) = destroyAll (destroy g d) rest := rfl
    rw [hcons]
    simp only [List.length_cons, Nat.cast_add, Nat.cast_one]
    by_cases hc : 14 ≤ g.destroyedObstacles
    · have e1 : (destroy g d).destroyedObstacles = 0 := by rw [hf.1]; simp [hc]
      have e2 : (destroy g d).healthpacks = g.healthpacks + 1 := by rw [hf.2.1]; simp [hc]
      have := ih (destroy g d) (by omega) (by omega)
      rw [e1, e2] at this
      rw [this.1, this.2]
      omega
    · have e1 : (destroy g d).destroyedObstacles = g.destroyedObstacles + 1 := by
        rw [hf.1]; simp [hc]
      have e2 : (destroy g d).healthpacks = g.healthpacks := by rw [hf.2.1]; simp [hc]
      have := ih (destroy g d) (by omega) (by omega)
      rw [e1, e2] at this
      rw [this.1, this.2]
      omega

/-- C3: in a sequence of `k` destructions that starts with `destroyedObstacles = 0` (and
in which no healthpack is used), the healthpack stock grows by `k div 15` and
`destroyedObstacles` is `k mod 15`; in every state of a run `destroyedObstacles` lies
between 0 and 14. -/
theorem C3_economy_threshold (g : Game) (ds : List Destruction)
    (h0 : g.destroyedObstacles = 0) :
    (destroyAll g ds).healthpacks = g.healthpacks + (ds.length : ℤ) / 15 ∧
    (destroyAll g ds).destroyedObstacles = (ds.length : ℤ) % 15 ∧
    (∀ r : Game, Reachable r → 0 ≤ r.destroyedObstacles ∧ r.destroyedObstacles ≤ 14) := by
  have h := destroyAll_economy ds g (by omega) (by omega)
  rw [h0, zero_add] at h
  exact ⟨h.1, h.2, fun r hr => (reachable_progressInv r hr).1⟩

/-- C3 (witness): in a new game 14 destructions grant no healthpack, and 15 destructions
grant one and leave `destroyedObstacles` at 0. -/
theorem C3_economy_threshold_witness :
    (destroyAll (Game.initial 256 1) (List.replicate 14 sampleDestruction)).healthpacks = 0 ∧
    (destroyAll (Game.initial 256 1) (List.replicate 15 sampleDestruction)).healthpacks = 1 ∧
    (destroyAll (Game.initial 256 1) (List.replicate 15 sampleDestruction)).destroyedObstacles
      = 0 := by
  have h14 := C3_economy_threshold (Game.initial 256 1) (List.replicate 14 sampleDestruction) rfl
  have h15 := C3_economy_threshold (Game.initial 256 1) (List.replicate 15 sampleDestruction) rfl
  refine ⟨?_, ?_, ?_⟩
  · rw [h14.1]; simp [Game.initial]
  · rw [h15.1]; simp [Game.initial]
  · rw [h15.2.1]; simp

/-- The special charge and its flag after a sequence of destructions, from any state in
which the charge is between 0 and 10 and the flag tells whether it is 10. -/
theorem destroyAll_special (ds : List Destruction) (g : Game)
    (h0 : 0 ≤ g.specialCharge) (h10 : g.specialCharge ≤ 10)
    (hflag : g.specialReady = true ↔ g.specialCharge = 10) :
    (destroyAll g ds).specialCharge = min (g.specialCharge + ds.length) 10 ∧
    ((destroyAll g ds).specialReady = true ↔ 10 ≤ g.specialCharge + ds.length) := by
  induction ds generalizing g with
  | nil =>
    simp only [destroyAll, List.foldl_nil, List.length_nil, Nat.cast_zero, add_zero]
    constructor
    · omega
    · rw [hflag]; omega
  | cons d rest ih =>
    have hf := destroy_fields g d
    have hcons : destroyAll g (d :: rest) = destroyAll (destroy g d) rest := rfl
    rw [hcons]
    simp only [List.length_cons, Nat.cast_add, Nat.cast_one]
    cases hr : g.specialReady
    · have hne : g.specialCharge ≠ 10 := fun hc => by simp [hflag.2 hc] at hr
      by_cases h9 : 9 ≤ g.specialCharge
      · have e1 : (destroy g d).specialCharge = 10 := by rw [hf.2.2.1]; simp [hr, h9]
        have e2 : (destroy g d).specialReady = true := by rw [hf.2.2.2.1]; simp [h9]
        have := ih (destroy g d) (by omega) (by omega) (by simp [e1, e2])
        rw [e1] at this
        rw [this.1, this.2]
        omega
      · have e1 : (destroy g d).specialCharge = g.specialCharge + 1 := by
          rw [hf.2.2.1]; simp [hr, h9]
        have e2 : (destroy g d).specialReady = false := by rw [hf.2.2.2.1]; simp [hr, h9]
        have := ih (destroy g d) (by omega) (by omega) (by rw [e1, e2]; simp; omega)
        rw [e1] at this
        rw [this.1, this.2]
        omega
    · have he : g.specialCharge = 10 := hflag.1 hr
      have e1 : (destroy g d).specialCharge = 10 := by rw [hf.2.2.1]; simp [hr, he]
      have e2 : (destroy g d).specialReady = true := by rw [hf.2.2.2.1]; simp [hr]
      have := ih (destroy g d) (by omega) (by omega) (by simp [e1, e2])
      rw [e1] at this
      rw [this.1, this.2]
      omega

/-- C8: in a sequence of `k` destructions that starts with `specialCharge = 0` and
`specialReady = false`, the charge is `min k 10` (the number of destructions up to the
10th, and 10 from then on) and `specialReady` holds exactly from the 10th destruction on;
the special shot (ship alive, `specialReady`, the key pressed) sets the charge to 0 and
clears the flag; in every state of a run the charge lies between 0 and 10 and
`specialReady` holds exactly when it is 10. -/
theorem C8_special_charge (g : Game) (ds : List Destruction) (i : Input)
    (h0 : g.specialCharge = 0) (hflag : g.specialReady = false) :
    (destroyAll g ds).specialCharge = min (ds.length : ℤ) 10 ∧
    ((destroyAll g ds).specialReady = true ↔ 10 ≤ ds.length) ∧
    (∀ s : Game, s.player.IsAlive = true → s.specialReady = true → i.keyR = true →
      (specialShot s i).specialCharge = 0 ∧ (specialShot s i).specialReady = false) ∧
    (∀ r : Game, Reachable r →
      0 ≤ r.specialCharge ∧ r.specialCharge ≤ 10 ∧
      (r.specialReady = true ↔ r.specialCharge = 10)) := by
  have h := destroyAll_special ds g (by omega) (by omega) (by rw [hflag, h0]; simp)
  rw [h0, zero_add] at h
  refine ⟨h.1, ?_, ?_, ?_⟩
  · rw [h.2]; omega
  · intro s ha hr hk
    unfold specialShot
    simp [ha, hr, hk]
  · intro r hr
    have := reachable_progressInv r hr
    exact ⟨this.2.1.1, this.2.1.2, this.2.2.1⟩

/-- C8 (witness): in a new game the special weapon is not ready after 9 destructions and
is ready, with charge 10, after 10 and after 12. -/
theorem C8_special_charge_witness :
    (destroyAll (Game.initial 256 1) (List.replicate 9 sampleDestruction)).specialCharge = 9 ∧
    (destroyAll (Game.initial 256 1) (List.replicate 10 sampleDestruction)).specialReady = true ∧
    (destroyAll (Game.initial 256 1) (List.replicate 12 sampleDestruction)).specialCharge = 10 := by
  have h9 := C8_special_charge (Game.initial 256 1) (List.replicate 9 sampleDestruction)
    idleInput rfl rfl
  have h10 := C8_special_charge (Game.initial 256 1) (List.replicate 10 sampleDestruction)
    idleInput rfl rfl
  have h12 := C8_special_charge (Game.initial 256 1) (List.replicate 12 sampleDestruction)
    idleInput rfl rfl
  refine ⟨?_, ?_, ?_⟩
  · rw [h9.1]; simp
  · exact h10.2.1.2 (by simp)
  · rw [h12.1]; simp

/-- Overwriting an element of a list with itself changes nothing. -/
theorem list_set_same {α : Type} (l : List α) (i : Nat) (h : i < l.length) :
    l.set i l[i] = l := by
  induction l generalizing i with
  | nil => simp at h
  | cons x xs ih =>
    cases i with
    | zero => rfl
    | succ j =>
      simp only [List.set_cons_succ, List.getElem_cons_succ]
      rw [ih j (by simpa using h)]

/-- Erasing an element that has just been overwritten erases the original element. -/
theorem list_eraseIdx_set {α : Type} (l : List α) (i : Nat) (x : α) :
    (l.set i x).eraseIdx i = l.eraseIdx i := by
  induction l generalizing i with
  | nil => rfl
  | cons y ys ih =>
    cases i with
    | zero => rfl
    | succ j =>
      simp only [List.set_cons_succ, List.eraseIdx_cons_succ]
      rw [ih j]

/-- The asteroid collection after a sequence of hits that the Big asteroid at index `ait`
survives: only its hit points have changed, by the sum of the damages. -/
theorem hitAll_survive (bigInit : AsteroidInit) (ait : Nat) (d : Int)
    (hits : List (Nat × Projectile)) (g : Game) (a : Asteroid)
    (ha : g.asteroids[ait]? = some a) (hbig : a.isBig = true)
    (hd : ∀ h ∈ hits, h.2.GetDamage = d)
    (hpos : ∀ k : Nat, k ≤ hits.length → 0 < a.hp - k * d) :
    (hitAll bigInit ait g hits).asteroids =
      g.asteroids.set ait { a with hp := a.hp - hits.length * d } := by
  have hlt : ait < g.asteroids.length := by
    by_contra hc
    rw [List.getElem?_eq_none (by omega)] at ha
    simp at ha
  induction hits generalizing g a with
  | nil =>
    simp only [hitAll, List.length_nil, Nat.cast_zero, zero_mul, sub_zero]
    rw [List.getElem?_eq_getElem hlt] at ha
    simp only [Option.some.injEq] at ha
    have e : ({ a with hp := a.hp } : Asteroid) = a := rfl
    rw [e, ← ha, list_set_same _ _ hlt]
  | cons h rest ih =>
    have hdh : h.2.GetDamage = d := hd h (List.mem_cons_self _ _)
    have hp1 : 0 < a.hp - h.2.GetDamage := by
      have := hpos 1 (by simp)
      rw [hdh]
      simpa using this
    have hstep : hitAll bigInit ait g (h :: rest) =
        hitAll bigInit ait (hitAsteroid bigInit g h.1 ait h.2 a).1 rest := by
      simp only [hitAll, ha]
    rw [hstep, hitAsteroid_survive bigInit g h.1 ait h.2 a hbig hp1]
    have ha1 : (g.asteroids.set ait { a with hp := a.hp - h.2.GetDamage })[ait]? =
        some { a with hp := a.hp - h.2.GetDamage } := by
      simp [hlt]
    rw [ih _ { a with hp := a.hp - h.2.GetDamage } ha1 hbig
      (fun x hx => hd x (List.mem_cons_of_mem _ hx)) ?_ (by simpa using hlt)]
    · simp only [List.set_set, List.length_cons, Nat.cast_add, Nat.cast_one]
      rw [hdh]
      congr 2
      ring
    · intro k hk
      have := hpos (k + 1) (by simpa using hk)
      rw [hdh]
      simp only [Nat.cast_add, Nat.cast_one] at this
      show 0 < (a.hp - d) - k * d
      linarith

/-- C7: a Big asteroid is spawned with 1000 hit points; after a sequence of projectile hits
of damage `d` each that the Big asteroid survives, the asteroid is still in the collection,
at its index, with its hit points reduced by `d` per hit; the first further hit of damage
`d` that brings the hit points to 0 or below erases it from the collection in the same
step. -/
theorem C7_big_damage_accumulation (bigInit : AsteroidInit) (ait : Nat) (d : Int)
    (hits : List (Nat × Projectile)) (g : Game) (a : Asteroid) (pit : Nat) (p : Projectile)
    (ha : g.asteroids[ait]? = some a) (hbig : a.isBig = true)
    (hd : ∀ h ∈ hits, h.2.GetDamage = d)
    (hpos : ∀ k : Nat, k ≤ hits.length → 0 < a.hp - k * d) :
    (BigAsteroid bigInit).hp = 1000 ∧
    (hitAll bigInit ait g hits).asteroids =
      g.asteroids.set ait { a with hp := a.hp - hits.length * d } ∧
    (hitAll bigInit ait g hits).asteroids[ait]? =
      some { a with hp := a.hp - hits.length * d } ∧
    (p.GetDamage = d → a.hp - (hits.length + 1) * d ≤ 0 →
      (hitAsteroid bigInit (hitAll bigInit ait g hits) pit ait p
        { a with hp := a.hp - hits.length * d }).1.asteroids =
      g.asteroids.eraseIdx ait ++
        (if 29 ≤ (hitAll bigInit ait g hits).destroyedAsteroids ∧
            (hitAll bigInit ait g hits).bigAsteroidSpawned = false
         then [BigAsteroid bigInit] else [])) := by
  have hlt : ait < g.asteroids.length := by
    by_contra hc
    rw [List.getElem?_eq_none (by omega)] at ha
    simp at ha
  have h1 := hitAll_survive bigInit ait d hits g a ha hbig hd hpos
  refine ⟨rfl, h1, ?_, ?_⟩
  · rw [h1]
    simp [hlt]
  · intro hp hle
    have hle1 : ({ a with hp := a.hp - hits.length * d } : Asteroid).hp - p.GetDamage ≤ 0 := by
      rw [hp]
      show (a.hp - hits.length * d) - d ≤ 0
      linarith
    rw [hitAsteroid_destroy_big bigInit (hitAll bigInit ait g hits) pit ait p
      { a with hp := a.hp - hits.length * d } hbig hle1, destroyAsteroid_eq]
    simp only [h1, List.set_set]
    congr 1
    rw [list_eraseIdx_set]

/-- The shot loop with a positive interval ends: from a timer `t ≥ 0` it makes
`⌊t / interval⌋` iterations and leaves `t - ⌊t / interval⌋ * interval` in the timer. -/
theorem shotLoop_spec (interval : ℚ) (hpos : 0 < interval) (g : Game) (n : Nat)
    (ht : 0 ≤ g.shotTimer) :
    ∃ g1 : Game, shotLoop interval g n = some (g1, n + (⌊g.shotTimer / interval⌋).toNat) ∧
      g1.shotTimer = g.shotTimer - ⌊g.shotTimer / interval⌋ * interval := by
  induction g, n using shotLoop.induct interval with
  | case1 g n hge _ ih =>
    have hstep : (shotBody interval g).shotTimer = g.shotTimer - interval := rfl
    have h0 : 0 ≤ (shotBody interval g).shotTimer := by rw [hstep]; linarith
    obtain ⟨g1, h1, h2⟩ := ih h0
    have hfl : ⌊(g.shotTimer - interval) / interval⌋ = ⌊g.shotTimer / interval⌋ - 1 := by
      rw [sub_div, div_self (ne_of_gt hpos), Int.floor_sub_one]
    have hq : (1 : ℤ) ≤ ⌊g.shotTimer / interval⌋ := by
      rw [Int.le_floor]
      have : (1 : ℚ) ≤ g.shotTimer / interval := by
        rw [le_div_iff₀ hpos]
        simpa using hge
      simpa using this
    refine ⟨g1, ?_, ?_⟩
    · rw [shotLoop]
      simp only [hge, hpos, if_true]
      rw [h1, hstep, hfl]
      congr 2
      omega
    · rw [h2, hstep, hfl]
      push_cast
      ring
  | case2 g n hge hnpos => exact absurd hpos hnpos
  | case3 g n hlt =>
    have hlt1 : g.shotTimer < interval := lt_of_not_ge hlt
    have hfl : ⌊g.shotTimer / interval⌋ = 0 := by
      rw [Int.floor_eq_iff]
      constructor
      · simpa using div_nonneg ht (le_of_lt hpos)
      · simpa using (div_lt_one hpos).2 hlt1
    refine ⟨g, ?_, ?_⟩
    · rw [shotLoop]
      simp [hlt, hfl]
    · rw [hfl]
      simp

/-- The hits leave `shotTimer` alone. -/
theorem hitAsteroid_shotTimer (bigInit : AsteroidInit) (g : Game) (pit ait : Nat)
    (p : Projectile) (a : Asteroid) :
    (hitAsteroid bigInit g pit ait p a).1.shotTimer = g.shotTimer := by
  cases hbig : a.isBig
  · rw [hitAsteroid_destroy_standard bigInit g pit ait p a hbig, destroyAsteroid_eq]
  · by_cases hpos : 0 < a.hp - p.GetDamage
    · rw [hitAsteroid_survive bigInit g pit ait p a hbig hpos]
    · rw [hitAsteroid_destroy_big bigInit g pit ait p a hbig (by omega), destroyAsteroid_eq]

/-- The shooting block with the fire key held by a live ship: the shot loop makes
`⌊(shotTimer + dt) * R⌋` iterations and leaves the rest of the division in `shotTimer`. -/
theorem shooting_held (g : Game) (i : Input) (R : ℚ)
    (halive : g.player.IsAlive = true) (hspace : i.keySpace = true)
    (hR : g.player.GetFireRate g.currentWeapon = R) (hRpos : 0 < R)
    (ht0 : 0 ≤ g.shotTimer) (hdt : 0 ≤ i.dt) :
    ∃ g1 : Game, shooting g i = some (g1, (⌊(g.shotTimer + i.dt) * R⌋).toNat) ∧
      g1.shotTimer = g.shotTimer + i.dt - ⌊(g.shotTimer + i.dt) * R⌋ / R := by
  have hint : 0 < 1 / R := by positivity
  obtain ⟨g1, h1, h2⟩ := shotLoop_spec (1 / R) hint { g with shotTimer := g.shotTimer + i.dt } 0
    (by show 0 ≤ g.shotTimer + i.dt; linarith)
  have hkeep := shotLoop_preserves
    (fun s => s.player = g.player ∧ s.currentWeapon = g.currentWeapon) (1 / R)
    (fun s hs => hs) _ 0 g1 _ h1 ⟨rfl, rfl⟩
  have hdiv : (g.shotTimer + i.dt) / (1 / R) = (g.shotTimer + i.dt) * R := by
    field_simp
  have hst : g1.shotTimer = g.shotTimer + i.dt - ⌊(g.shotTimer + i.dt) * R⌋ / R := by
    rw [h2]
    show g.shotTimer + i.dt - ⌊(g.shotTimer + i.dt) / (1 / R)⌋ * (1 / R) = _
    rw [hdiv]
    ring
  have hlt : g1.shotTimer < 1 / R := by
    rw [hst]
    have := Int.lt_floor_add_one ((g.shotTimer + i.dt) * R)
    rw [sub_lt_iff_lt_add, ← add_div, lt_div_iff₀ hRpos]
    linarith
  have hfire : fire g i = some (g1, (⌊(g.shotTimer + i.dt) * R⌋).toNat) := by
    unfold fire
    simp only [halive, hspace, Bool.and_self, if_true, hR]
    rw [h1]
    show some (g1, 0 + (⌊(g.shotTimer + i.dt) / (1 / R)⌋).toNat) = _
    rw [hdiv, zero_add]
  refine ⟨specialShot (useHealthpack g1 i) i, ?_, ?_⟩
  · unfold shooting
    rw [hfire]
  · have hp1 : (useHealthpack g1 i).shotTimer = g1.shotTimer := by
      unfold useHealthpack
      split <;> rfl
    have hp2 : (useHealthpack g1 i).player.GetFireRate (useHealthpack g1 i).currentWeapon = R := by
      rw [← hR, ← hkeep.1, ← hkeep.2]
      unfold useHealthpack
      split <;> rfl
    rw [← hst, ← hp1]
    unfold specialShot
    split
    · rfl
    · dsimp only
      rw [hp2]
      have : ¬ (useHealthpack g1 i).shotTimer > 1 / R := by
        rw [hp1]
        exact not_lt.2 (le_of_lt hlt)
      simp only [this, if_false]

/-- The statements of the frame before the shooting block, in a frame of a live ship
without a weapon switch: the timer, the life, and the fire rate of the current weapon are
as before. -/
theorem prelude_held (g : Game) (i : Input) (halive : g.player.IsAlive = true)
    (htab : i.keyTab = false) :
    (controls (restart (updatePlayer (tick g i.dt) i) i) i).shotTimer = g.shotTimer ∧
    (controls (restart (updatePlayer (tick g i.dt) i) i) i).player.IsAlive = true ∧
    (controls (restart (updatePlayer (tick g i.dt) i) i) i).player.GetFireRate
      (controls (restart (updatePlayer (tick g i.dt) i) i) i).currentWeapon
      = g.player.GetFireRate g.currentWeapon := by
  have ha : g.player.alive = true := halive
  simp [controls, restart, updatePlayer, tick, Ship.Update, Ship.IsAlive, Ship.GetFireRate, ha,
    htab]

/-- One frame with the fire key held by a live ship, the game not ended, the weapon not
switched: the number of shot-loop iterations and the new `shotTimer`. -/
theorem frame_held (g : Game) (i : Input) (R : ℚ) (g1 : Game) (n : Nat)
    (hend : g.gameEnded = false) (halive : g.player.IsAlive = true)
    (hspace : i.keySpace = true) (htab : i.keyTab = false)
    (hR : g.player.GetFireRate g.currentWeapon = R) (hRpos : 0 < R)
    (ht0 : 0 ≤ g.shotTimer) (hdt : 0 ≤ i.dt)
    (hf : frame g i = some (g1, n)) :
    n = (⌊(g.shotTimer + i.dt) * R⌋).toNat ∧
    g1.shotTimer = g.shotTimer + i.dt - ⌊(g.shotTimer + i.dt) * R⌋ / R := by
  obtain ⟨hp1, hp2, hp3⟩ := prelude_held g i halive htab
  obtain ⟨g2, hs1, hs2⟩ := shooting_held _ i R hp2 hspace (hp3.trans hR) hRpos
    (by rw [hp1]; exact ht0) hdt
  rw [hp1] at hs1 hs2
  unfold frame at hf
  have hge : (tick g i.dt).gameEnded = false := hend
  rw [if_neg (by simp [hge]), hs1] at hf
  simp only at hf
  split at hf
  · simp at hf
  · rename_i g3 hcoll
    simp only [Option.some.injEq, Prod.mk.injEq] at hf
    refine ⟨hf.2.symm, ?_⟩
    rw [← hf.1, ← hs2]
    show g3.shotTimer = g2.shotTimer
    have hpre : (updateProjectiles (spawn g2 i) i.dt).shotTimer = g2.shotTimer := by
      unfold updateProjectiles spawn
      split <;> rfl
    rw [← hpre]
    exact collisions_preserves
      (fun s => s.shotTimer = (updateProjectiles (spawn g2 i) i.dt).shotTimer) i.bigInit
      (fun s pit ait p _ hs => (hitAsteroid_shotTimer i.bigInit s pit ait p _).trans hs)
      _ 0 g3 hcoll rfl

/-- The remainder left in `shotTimer` lies in `[0, 1 / R)`. -/
theorem remainder_bounds (t R : ℚ) (hRpos : 0 < R) :
    0 ≤ t - ⌊t * R⌋ / R ∧ t - ⌊t * R⌋ / R < 1 / R := by
  have h1 := Int.floor_le (t * R)
  have h2 := Int.lt_floor_add_one (t * R)
  constructor
  · rw [sub_nonneg, div_le_iff₀ hRpos]
    exact h1
  · rw [sub_lt_iff_lt_add, ← add_div, lt_div_iff₀ hRpos]
    linarith

/-- A run with the fire key held, from a timer `t0` in `[0, 1 / R)`: the total number of
shot-loop iterations and the final `shotTimer`. -/
theorem Run_held (R : ℚ) (hRpos : 0 < R) (inputs : List Input) (g : Game)
    (ht0 : 0 ≤ g.shotTimer) (ht1 : g.shotTimer < 1 / R) (hrun : heldRun R g inputs) :
    ∃ (g1 : Game) (N : Nat), Run g inputs = some (g1, N) ∧
      (N : ℤ) = ⌊(g.shotTimer + totalTime inputs) * R⌋ ∧
      g1.shotTimer = g.shotTimer + totalTime inputs - ⌊(g.shotTimer + totalTime inputs) * R⌋ / R := by
  induction inputs generalizing g with
  | nil =>
    refine ⟨g, 0, rfl, ?_, ?_⟩
    · have hfl : ⌊g.shotTimer * R⌋ = 0 := by
        rw [Int.floor_eq_iff]
        constructor
        · simpa using mul_nonneg ht0 (le_of_lt hRpos)
        · rw [lt_div_iff₀ hRpos] at ht1
          simpa using ht1
      simp [totalTime, hfl]
    · have hfl : ⌊g.shotTimer * R⌋ = 0 := by
        rw [Int.floor_eq_iff]
        constructor
        · simpa using mul_nonneg ht0 (le_of_lt hRpos)
        · rw [lt_div_iff₀ hRpos] at ht1
          simpa using ht1
      simp [totalTime, hfl]
  | cons i rest ih =>
    obtain ⟨hend, halive, hspace, htab, hdt, hR, g1, n, hf, hrest⟩ := hrun
    obtain ⟨hn, hst⟩ := frame_held g i R g1 n hend halive hspace htab hR hRpos ht0 hdt hf
    have hb := remainder_bounds (g.shotTimer + i.dt) R hRpos
    rw [← hst] at hb
    obtain ⟨g2, M, hrun2, hM, hst2⟩ := ih g1 hb.1 hb.2 hrest
    have hnn : 0 ≤ ⌊(g.shotTimer + i.dt) * R⌋ :=
      Int.floor_nonneg.2 (mul_nonneg (by linarith) (le_of_lt hRpos))
    have hnz : (n : ℤ) = ⌊(g.shotTimer + i.dt) * R⌋ := by
      rw [hn]
      exact Int.toNat_of_nonneg hnn
    have htot : totalTime (i :: rest) = i.dt + totalTime rest := by
      simp [totalTime]
    have hfloor : ⌊(g1.shotTimer + totalTime rest) * R⌋ =
        ⌊(g.shotTimer + totalTime (i :: rest)) * R⌋ - ⌊(g.shotTimer + i.dt) * R⌋ := by
      have hRne : R ≠ 0 := ne_of_gt hRpos
      have e : (g.shotTimer + i.dt - (⌊(g.shotTimer + i.dt) * R⌋ : ℚ) / R + totalTime rest) * R =
          (g.shotTimer + (i.dt + totalTime rest)) * R - (⌊(g.shotTimer + i.dt) * R⌋ : ℚ) := by
        have hc : (⌊(g.shotTimer + i.dt) * R⌋ : ℚ) / R * R = ⌊(g.shotTimer + i.dt) * R⌋ :=
          div_mul_cancel₀ _ hRne
        linear_combination (-1 : ℚ) * hc
      rw [← Int.floor_sub_int, hst, htot, e]
    refine ⟨g2, n + M, ?_, ?_, ?_⟩
    · show (match frame g i with
        | none => none
        | some (g1, n) =>
          match Run g1 rest with
          | none => none
          | some (g2, m) => some (g2, n + m)) = _
      rw [hf]
      simp only
      rw [hrun2]
    · push_cast
      rw [hM, hnz, hfloor]
      ring
    · rw [hst2, hfloor, hst, htot, Int.cast_sub]
      ring

/-- The projectile loop at `end()`. -/
theorem collisions_end (bigInit : AsteroidInit) (g : Game) :
    collisions bigInit g g.projectiles.length = some g := by
  rw [collisions]
  simp

/-- The projectile loop on a projectile that its asteroid loop keeps: next projectile. -/
theorem collisions_kept (bigInit : AsteroidInit) (g : Game) (pit : Nat) (g1 : Game)
    (hlt : pit < g.projectiles.length)
    (hs : asteroidScan bigInit pit g 0 = some (g1, false)) :
    collisions bigInit g pit = collisions bigInit g1 (pit + 1) := by
  rw [collisions]
  simp only [Nat.ne_of_lt hlt, hlt, if_false, if_true]
  split
  · rename_i heq
    rw [hs] at heq
    simp at heq
  · rename_i g2 heq
    rw [hs] at heq
    simp at heq
  · rename_i g2 heq
    rw [hs] at heq
    simp only [Option.some.injEq, Prod.mk.injEq, and_true] at heq
    rw [heq]

/-- The projectile loop on a projectile that its asteroid loop erases: same index again. -/
theorem collisions_removed (bigInit : AsteroidInit) (g : Game) (pit : Nat) (g1 : Game)
    (hlt : pit < g.projectiles.length)
    (hs : asteroidScan bigInit pit g 0 = some (g1, true)) :
    collisions bigInit g pit = collisions bigInit g1 pit := by
  rw [collisions]
  simp only [Nat.ne_of_lt hlt, hlt, if_false, if_true]
  split
  · rename_i heq
    rw [hs] at heq
    simp at heq
  · rename_i g2 heq
    rw [hs] at heq
    simp only [Option.some.injEq, Prod.mk.injEq, and_true] at heq
    rw [heq]
  · rename_i g2 heq
    rw [hs] at heq
    simp at heq

/-- Without asteroids the projectile loop changes nothing. -/
theorem collisions_no_asteroids (bigInit : AsteroidInit) (g : Game) (hempty : g.asteroids = [])
    (k pit : Nat) (hk : pit + k = g.projectiles.length) :
    collisions bigInit g pit = some g := by
  induction k generalizing pit with
  | zero =>
    have : pit = g.projectiles.length := by omega
    rw [this]
    exact collisions_end bigInit g
  | succ j ih =>
    have hs : asteroidScan bigInit pit g 0 = some (g, false) := by
      have := asteroidScan_end bigInit pit g
      rw [hempty] at this
      simpa [hempty] using this
    rw [collisions_kept bigInit g pit g (by omega) hs]
    exact ih (pit + 1) (by omega)

/-- The shooting block keeps the calm part of the state. -/
theorem shooting_calm (g : Game) (i : Input) (g1 : Game) (n : Nat)
    (h : shooting g i = some (g1, n)) : g1.calm = g.calm := by
  unfold shooting at h
  split at h
  · simp at h
  · rename_i g2 n2 hfire
    simp only [Option.some.injEq, Prod.mk.injEq] at h
    have h2 : g2.calm = g.calm := by
      unfold fire at hfire
      split at hfire
      · exact shotLoop_preserves (fun s => s.calm = g.calm) _ (fun s hs => hs) _ 0 g2 n2 hfire rfl
      · simp only [Option.some.injEq, Prod.mk.injEq] at hfire
        rw [← hfire.1]
    rw [← h.1, ← h2]
    have h3 : (useHealthpack g2 i).calm = g2.calm := by
      unfold useHealthpack
      split <;> rfl
    rw [← h3]
    unfold specialShot
    split
    · rfl
    · dsimp only
      split <;> rfl

/-- A frame without asteroids and without a spawn, with the fire key held by a live ship:
the frame has a result, and that result is again without asteroids, with the ship alive. -/
theorem frame_calm (g : Game) (i : Input) (R st si : ℚ)
    (hcalm : g.calm = (false, true, R, [], st, si)) (hRpos : 0 < R)
    (hspace : i.keySpace = true) (htab : i.keyTab = false)
    (ht0 : 0 ≤ g.shotTimer) (hdt : 0 ≤ i.dt) (hspawn : st + i.dt < si) :
    ∃ (g1 : Game) (n : Nat), frame g i = some (g1, n) ∧
      g1.calm = (false, true, R, [], st + i.dt, si) := by
  simp only [Game.calm, Prod.mk.injEq] at hcalm
  obtain ⟨hend, halive, hR, hempty, hst, hsi⟩ := hcalm
  obtain ⟨hp1, hp2, hp3⟩ := prelude_held g i halive htab
  have hpc : (controls (restart (updatePlayer (tick g i.dt) i) i) i).calm =
      (false, true, R, [], st + i.dt, si) := by
    simp only [Game.calm, Prod.mk.injEq]
    refine ⟨?_, hp2, hp3.trans hR, ?_, ?_, ?_⟩
    · simp [controls, restart, updatePlayer, tick, Ship.Update, Ship.IsAlive, halive, hend]
    · simp [controls, restart, updatePlayer, tick, Ship.Update, Ship.IsAlive, halive, hempty]
    · simp [controls, restart, updatePlayer, tick, Ship.Update, Ship.IsAlive, halive, hst]
    · simp [controls, restart, updatePlayer, tick, Ship.Update, Ship.IsAlive, halive, hsi]
  obtain ⟨g2, hs1, _⟩ := shooting_held _ i R hp2 hspace (hp3.trans hR) hRpos
    (by rw [hp1]; exact ht0) hdt
  have hc2 := (shooting_calm _ i g2 _ hs1).trans hpc
  simp only [Game.calm, Prod.mk.injEq] at hc2
  obtain ⟨hend2, halive2, hR2, hempty2, hst2, hsi2⟩ := hc2
  have hsp : spawn g2 i = g2 := by
    unfold spawn
    have : ¬ (g2.spawnTimer ≥ g2.spawnInterval) := by
      rw [hst2, hsi2]
      exact not_le.2 hspawn
    simp [this]
  have hup : (updateProjectiles g2 i.dt).asteroids = [] := hempty2
  have hcoll := collisions_no_asteroids i.bigInit (updateProjectiles g2 i.dt) hup
    (updateProjectiles g2 i.dt).projectiles.length 0 (by simp)
  refine ⟨shipCollisions (updateProjectiles g2 i.dt) i.dt,
    (⌊((controls (restart (updatePlayer (tick g i.dt) i) i) i).shotTimer + i.dt) * R⌋).toNat,
    ?_, ?_⟩
  · unfold frame
    have hge : (tick g i.dt).gameEnded = false := hend
    rw [if_neg (by simp [hge]), hs1]
    simp only
    rw [hsp, hcoll]
  · simp only [Game.calm, shipCollisions, updateProjectiles, hempty2, removeCollided,
      Prod.mk.injEq]
    exact ⟨hend2, halive2, hR2, trivial, hst2, hsi2⟩

/-- The total time of frames with non-negative frame times is non-negative. -/
theorem totalTime_nonneg (inputs : List Input) (h : ∀ i ∈ inputs, 0 ≤ i.dt) :
    0 ≤ totalTime inputs := by
  induction inputs with
  | nil => simp [totalTime]
  | cons i rest ih =>
    have h1 := h i (List.mem_cons_self _ _)
    have h2 := ih (fun j hj => h j (List.mem_cons_of_mem _ hj))
    have : totalTime (i :: rest) = i.dt + totalTime rest := by simp [totalTime]
    rw [this]
    linarith

/-- From a state without asteroids, frames with the fire key held that end before the next
spawn form a run with the fire key held. -/
theorem heldRun_calm (R : ℚ) (hRpos : 0 < R) (inputs : List Input) (g : Game) (st si : ℚ)
    (hcalm : g.calm = (false, true, R, [], st, si)) (ht0 : 0 ≤ g.shotTimer)
    (hin : ∀ i ∈ inputs, i.keySpace = true ∧ i.keyTab = false ∧ 0 ≤ i.dt)
    (hspawn : st + totalTime inputs < si) : heldRun R g inputs := by
  induction inputs generalizing g st with
  | nil => trivial
  | cons i rest ih =>
    obtain ⟨hspace, htab, hdt⟩ := hin i (List.mem_cons_self _ _)
    have hrest : ∀ j ∈ rest, j.keySpace = true ∧ j.keyTab = false ∧ 0 ≤ j.dt :=
      fun j hj => hin j (List.mem_cons_of_mem _ hj)
    have htot : totalTime (i :: rest) = i.dt + totalTime rest := by simp [totalTime]
    have hnn := totalTime_nonneg rest (fun j hj => (hrest j hj).2.2)
    obtain ⟨g1, n, hf, hc1⟩ := frame_calm g i R st si hcalm hRpos hspace htab ht0 hdt
      (by rw [htot] at hspawn; linarith)
    have hc := hcalm
    simp only [Game.calm, Prod.mk.injEq] at hc
    obtain ⟨hend, halive, hR, _, _, _⟩ := hc
    have hst := (frame_held g i R g1 n hend halive hspace htab hR hRpos ht0 hdt hf).2
    have hb := (remainder_bounds (g.shotTimer + i.dt) R hRpos).1
    rw [← hst] at hb
    exact ⟨hend, halive, hspace, htab, hdt, hR, g1, n, hf,
      ih g1 (st + i.dt) hc1 hb hrest (by rw [htot] at hspawn; linarith)⟩

/-- C9 (as amended): over exact arithmetic, in a run of frames with non-negative frame
times, in each of which the game has not ended and a live ship holds the fire key with an
unchanged weapon of fire rate `R > 0`, starting with `shotTimer = 0`, the total number of
iterations of the shot loop is `⌊T * R⌋` for the total time `T` of the frames, whatever
the division of `T` into frames, and the final `shotTimer` is `T - ⌊T * R⌋ / R`, in
`[0, 1 / R)`; and in each such frame the shot loop ends, after `⌊(shotTimer + dt) * R⌋`
iterations. -/
theorem C9_firing_cadence (R : ℚ) (g : Game) (inputs : List Input) (hRpos : 0 < R)
    (h0 : g.shotTimer = 0) (hrun : heldRun R g inputs) :
    (∃ (g1 : Game) (N : Nat), Run g inputs = some (g1, N) ∧
      (N : ℤ) = ⌊totalTime inputs * R⌋ ∧
      g1.shotTimer = totalTime inputs - ⌊totalTime inputs * R⌋ / R ∧
      0 ≤ g1.shotTimer ∧ g1.shotTimer < 1 / R) ∧
    (∀ (s : Game) (i : Input), s.player.IsAlive = true → i.keySpace = true →
      s.player.GetFireRate s.currentWeapon = R → 0 ≤ s.shotTimer → 0 ≤ i.dt →
      ∃ s1 : Game, shooting s i = some (s1, (⌊(s.shotTimer + i.dt) * R⌋).toNat)) := by
  constructor
  · obtain ⟨g1, N, h1, h2, h3⟩ := Run_held R hRpos inputs g (by rw [h0])
      (by rw [h0]; positivity) hrun
    rw [h0, zero_add] at h2 h3
    have hb := remainder_bounds (totalTime inputs) R hRpos
    rw [← h3] at hb
    exact ⟨g1, N, h1, h2, h3, hb.1, hb.2⟩
  · intro s i ha hs hR ht hdt
    obtain ⟨s1, h1, _⟩ := shooting_held s i R ha hs hR hRpos ht hdt
    exact ⟨s1, h1⟩

/-- C9 (witness): a new game, the laser (18 shots per second), two frames of a tenth of a
second with the fire key held: 3 shots, as `⌊(2 / 10) * 18⌋`, and 1/30 s left in the timer. -/
theorem C9_firing_cadence_witness :
    ∃ (g1 : Game) (N : Nat), Run (Game.initial 256 1) [heldInput, heldInput] = some (g1, N) ∧
      (N : ℤ) = 3 ∧ g1.shotTimer = 1 / 30 := by
  have hrun : heldRun 18 (Game.initial 256 1) [heldInput, heldInput] := by
    refine heldRun_calm 18 (by norm_num) _ _ 0 1 ?_ (le_refl _) ?_ ?_
    · simp [Game.calm, Game.initial, PlayerShip, Ship.GetFireRate]
    · intro i hi
      simp only [List.mem_cons, List.mem_singleton, List.not_mem_nil, or_false, or_self] at hi
      rw [hi]
      simp [heldInput, idleInput]
    · norm_num [totalTime, heldInput, idleInput]
  obtain ⟨g1, N, h1, h2, h3, _, _⟩ :=
    (C9_firing_cadence 18 (Game.initial 256 1) [heldInput, heldInput] (by norm_num) rfl hrun).1
  have hT : totalTime [heldInput, heldInput] = 1 / 5 := by
    norm_num [totalTime, heldInput, idleInput]
  have hfl : ⌊(1 / 5 : ℚ) * 18⌋ = 3 := by
    rw [Int.floor_eq_iff]
    norm_num
  rw [hT, hfl] at h2 h3
  refine ⟨g1, N, h1, h2, ?_⟩
  rw [h3]
  norm_num

/-- C7 (witness): three laser hits (20 each) on a Big asteroid with 1000 hit points leave
it in the collection with 940 hit points. -/
theorem C7_big_damage_accumulation_witness :
    (hitAll sampleInit 0 sampleBoss
      [(0, sampleLaser), (0, sampleLaser), (0, sampleLaser)]).asteroids[0]? =
      some { BigAsteroid sampleInit with hp := 940 } := by
  have h := (C7_big_damage_accumulation sampleInit 0 20
    [(0, sampleLaser), (0, sampleLaser), (0, sampleLaser)] sampleBoss (BigAsteroid sampleInit)
    0 sampleLaser rfl rfl
    (by intro h hh
        simp only [List.mem_cons, List.mem_singleton, List.not_mem_nil, or_false, or_self] at hh
        rw [hh]
        rfl)
    (by intro k hk
        have h3 : k ≤ 3 := hk
        have hhp : (BigAsteroid sampleInit).hp = 1000 := rfl
        rw [hhp]
        omega)).2.2.1
  rw [h]
  rfl

/-- C9 (counterexample): in the ended sample state the ship is alive and `shotTimer` is 0;
a frame of a tenth of a second with the fire key held makes no iteration of the shot loop,
although `⌊(1 / 10) * 18⌋ = 1`: a frame of an ended run does no shooting. -/
theorem C9_no_shots_after_end :
    sampleEnded.player.IsAlive = true ∧ sampleEnded.shotTimer = 0 ∧
    sampleEnded.player.GetFireRate sampleEnded.currentWeapon = 18 ∧
    heldInput.keySpace = true ∧ heldInput.keyTab = false ∧
    Run sampleEnded [heldInput] = some (tick sampleEnded heldInput.dt, 0) ∧
    ⌊totalTime [heldInput] * 18⌋ = 1 := by
  have hs := congrArg Prod.fst (hitAsteroid_destroy_big sampleInit sampleDuel 0 0 sampleLaser
    sampleBig20 rfl (by decide))
  rw [destroyAsteroid_eq] at hs
  have hend : sampleEnded.gameEnded = true := by
    unfold sampleEnded
    rw [hs]
    rfl
  refine ⟨?_, ?_, ?_, rfl, rfl, ?_, ?_⟩
  · unfold sampleEnded
    rw [hs]
    rfl
  · unfold sampleEnded
    rw [hs]
    rfl
  · unfold sampleEnded
    rw [hs]
    simp [sampleDuel, Game.initial, PlayerShip, Ship.GetFireRate]
  · have hge : (tick sampleEnded heldInput.dt).gameEnded = true := hend
    simp [Run, frame, hge]
  · rw [Int.floor_eq_iff]
    norm_num [totalTime, heldInput, idleInput]

/-- The contact damage of an asteroid does not change when the asteroid moves. -/
theorem Update_GetDamage (a : Asteroid) (dt : ℚ) : (a.Update dt).1.GetDamage = a.GetDamage := by
  unfold Asteroid.Update
  dsimp only
  split <;> rfl

/-- The ship collisions keep the range of the ship's hit points and the range of the
contact damages. -/
theorem removeCollided_inv (dt : ℚ) (l : List Asteroid) (s : Ship) (hs : s.hpInRange)
    (hl : ∀ a ∈ l, 0 < a.GetDamage ∧ a.GetDamage ≤ 120) :
    (removeCollided dt s l).1.hpInRange ∧
    ∀ a ∈ (removeCollided dt s l).2, 0 < a.GetDamage ∧ a.GetDamage ≤ 120 := by
  induction l generalizing s with
  | nil => exact ⟨hs, fun a ha => by simp [removeCollided] at ha⟩
  | cons x rest ih =>
    have hx := hl x (List.mem_cons_self _ _)
    have hrest : ∀ a ∈ rest, 0 < a.GetDamage ∧ a.GetDamage ≤ 120 :=
      fun a ha => hl a (List.mem_cons_of_mem _ ha)
    have hs1 : (remove_collision dt s x).1.hpInRange := by
      unfold remove_collision
      split
      · exact TakeDamage_hpInRange s _ hx hs
      · exact hs
    have hx1 : 0 < (remove_collision dt s x).2.1.GetDamage ∧
        (remove_collision dt s x).2.1.GetDamage ≤ 120 := by
      unfold remove_collision
      split
      · exact hx
      · show 0 < (x.Update dt).1.GetDamage ∧ (x.Update dt).1.GetDamage ≤ 120
        rw [Update_GetDamage]
        exact hx
    have h := ih (remove_collision dt s x).1 hs1 hrest
    refine ⟨h.1, ?_⟩
    intro a ha
    simp only [removeCollided] at ha
    split at ha
    · exact h.2 a ha
    · rcases List.mem_cons.1 ha with h1 | h1
      · rw [h1]
        exact hx1
      · exact h.2 a h1

/-- A destruction keeps the invariant of the ship and of the contact damages. -/
theorem destroyAsteroid_shipInv (bigInit : AsteroidInit) (g : Game) (pit ait : Nat)
    (p : Projectile) (big : Bool) (h : g.shipInv) :
    (destroyAsteroid bigInit g pit ait p big).1.shipInv := by
  rw [destroyAsteroid_eq]
  refine ⟨h.1, ?_⟩
  intro a ha
  rcases List.mem_append.1 ha with h1 | h1
  · exact h.2 a (List.mem_of_mem_eraseIdx h1)
  · split at h1
    · rw [List.mem_singleton.1 h1]
      exact (constructed_damage_bounds AsteroidShape.RANDOM 0 bigInit).2
    · simp at h1

/-- A hit on an asteroid of the collection keeps the invariant of the ship and of the
contact damages. -/
theorem hitAsteroid_shipInv (bigInit : AsteroidInit) (g : Game) (pit ait : Nat)
    (p : Projectile) (hlt : ait < g.asteroids.length) (h : g.shipInv) :
    (hitAsteroid bigInit g pit ait p g.asteroids[ait]).1.shipInv := by
  have hmem : g.asteroids[ait] ∈ g.asteroids := List.getElem_mem hlt
  have hset : ∀ a1 : Asteroid, a1.GetDamage = g.asteroids[ait].GetDamage →
      ({ g with asteroids := g.asteroids.set ait a1 } : Game).shipInv := by
    intro a1 h1
    refine ⟨h.1, ?_⟩
    intro a ha
    rcases List.mem_or_eq_of_mem_set ha with h2 | h2
    · exact h.2 a h2
    · rw [h2, h1]
      exact h.2 _ hmem
  have ha1 := hset { g.asteroids[ait] with hp := g.asteroids[ait].hp - p.GetDamage } rfl
  cases hbig : g.asteroids[ait].isBig
  · rw [hitAsteroid_destroy_standard bigInit g pit ait p _ hbig]
    exact destroyAsteroid_shipInv bigInit g pit ait p false h
  · by_cases hpos : 0 < g.asteroids[ait].hp - p.GetDamage
    · rw [hitAsteroid_survive bigInit g pit ait p _ hbig hpos]
      exact ⟨ha1.1, ha1.2⟩
    · rw [hitAsteroid_destroy_big bigInit g pit ait p _ hbig (by omega)]
      exact destroyAsteroid_shipInv bigInit _ pit ait p true ha1

/-- The invariant of the ship and of the contact damages holds in every state of a run. -/
theorem reachable_shipInv (g : Game) (h : Reachable g) : g.shipInv := by
  induction h with
  | initial w si =>
    refine ⟨?_, fun a ha => by simp [Game.initial] at ha⟩
    simp [Game.initial, Ship.hpInRange, PlayerShip]
  | step g i g1 n _ hf ih =>
    refine frame_preserves Game.shipInv ?_ ?_ ?_ ?_ ?_ ?_ ?_ ?_ ?_ ?_ ?_ ?_ g i g1 n hf ih
    · intro g dt h; exact h
    · intro g i h
      refine ⟨?_, h.2⟩
      have := h.1
      unfold Ship.hpInRange at *
      unfold updatePlayer Ship.Update
      dsimp only
      split <;> exact this
    · intro g i h
      unfold restart
      split
      · refine ⟨?_, fun a ha => by simp at ha⟩
        simp [Ship.hpInRange, PlayerShip]
      · exact h
    · intro g i h; exact h
    · intro g dt h; exact h
    · intro g interval h; exact h
    · intro g i h
      refine ⟨useHealthpack_hpInRange g i h.1, ?_⟩
      unfold useHealthpack
      split <;> exact h.2
    · intro g i h
      unfold specialShot
      split
      · exact h
      · dsimp only
        split <;> exact h
    · intro g i h
      unfold spawn
      split
      · refine ⟨h.1, ?_⟩
        intro a ha
        rcases List.mem_append.1 ha with h1 | h1
        · exact h.2 a h1
        · rw [List.mem_singleton.1 h1]
          exact (constructed_damage_bounds _ _ _).1
      · exact h
    · intro g dt h; exact h
    · intro bigInit g pit ait p hlt h
      exact hitAsteroid_shipInv bigInit g pit ait p hlt h
    · intro g dt h
      exact removeCollided_inv dt g.asteroids g.player h.1 h.2

/-- C10 (as amended): in every state reached from a freshly constructed ship by asteroid
contacts (`TakeDamage` with the `GetDamage()` of an asteroid) and healthpack uses, the
ship's hit points are at most 100 and positive exactly while the ship is alive; the hit
that destroys the ship leaves them at 0 or below, never below -119.  The same holds in
every state of a run. -/
theorem C10_ship_hit_points (g : Game) (evs : List ShipEvent) (w : ℚ)
    (hfresh : g.player = PlayerShip w) :
    (applyEvents g evs).player.GetHP ≤ 100 ∧
    -119 ≤ (applyEvents g evs).player.GetHP ∧
    ((applyEvents g evs).player.IsAlive = true ↔ 0 < (applyEvents g evs).player.GetHP) ∧
    (∀ r : Game, Reachable r →
      r.player.GetHP ≤ 100 ∧ -119 ≤ r.player.GetHP ∧
      (r.player.IsAlive = true ↔ 0 < r.player.GetHP)) := by
  have key : ∀ (evs : List ShipEvent) (g : Game), g.player.hpInRange →
      (applyEvents g evs).player.hpInRange := by
    intro evs
    induction evs with
    | nil => intro g hg; exact hg
    | cons e rest ih =>
      intro g hg
      show (applyEvents (applyEvent g e) rest).player.hpInRange
      apply ih
      cases e with
      | contact shape pick r =>
        exact TakeDamage_hpInRange _ _ (constructed_damage_bounds shape pick r).1 hg
      | contactBig r =>
        exact TakeDamage_hpInRange _ _ (constructed_damage_bounds AsteroidShape.RANDOM 0 r).2 hg
      | healthpack i => exact useHealthpack_hpInRange g i hg
  have h0 : g.player.hpInRange := by
    rw [hfresh]
    simp [Ship.hpInRange, PlayerShip]
  exact ⟨(key evs g h0).1, (key evs g h0).2.1, (key evs g h0).2.2,
    fun r hr => (reachable_shipInv r hr).1⟩

/-- C10 (witness): a new ship with one healthpack in stock, a contact with a large
pentagon, then the healthpack. -/
theorem C10_ship_hit_points_witness :
    (applyEvents { Game.initial 256 1 with healthpacks := 1 }
      [ShipEvent.contact AsteroidShape.PENTAGON 0 sampleInit,
       ShipEvent.healthpack { idleInput with keyH := true }]).player.GetHP ≤ 100 :=
  (C10_ship_hit_points { Game.initial 256 1 with healthpacks := 1 }
    [ShipEvent.contact AsteroidShape.PENTAGON 0 sampleInit,
     ShipEvent.healthpack { idleInput with keyH := true }] 256 rfl).1

/-- C10 (counterexample): two contacts of a new ship with large pentagons (60 damage each)
leave the ship with -20 hit points, below the range 0 to 100. -/
theorem C10_hit_points_below_zero :
    (PentagonAsteroid sampleInit).GetDamage = 60 ∧
    (applyEvents (Game.initial 256 1)
      [ShipEvent.contact AsteroidShape.PENTAGON 0 sampleInit,
       ShipEvent.contact AsteroidShape.PENTAGON 0 sampleInit]).player.GetHP = -20 := by
  decide

/-- The asteroid loop passes over the asteroids that the projectile does not touch. -/
theorem asteroidScan_skip (bigInit : AsteroidInit) (pit : Nat) (g : Game) (p : Projectile)
    (hp : g.projectiles[pit]? = some p) (k : Nat) (hk : k ≤ g.asteroids.length)
    (n a0 : Nat) (hn : a0 + n = k)
    (hmiss : ∀ (j : Nat) (b : Asteroid), a0 ≤ j → j < k → g.asteroids[j]? = some b →
      overlaps p b = false) :
    asteroidScan bigInit pit g a0 = asteroidScan bigInit pit g k := by
  induction n generalizing a0 with
  | zero =>
    have : a0 = k := by omega
    rw [this]
  | succ m ih =>
    have hlt : a0 < g.asteroids.length := by omega
    have hov : overlaps p g.asteroids[a0] = false :=
      hmiss a0 _ (le_refl _) (by omega) (List.getElem?_eq_getElem hlt)
    rw [asteroidScan_miss bigInit pit g a0 p hlt hp hov]
    exact ih (a0 + 1) (by omega) (fun j b h1 h2 h3 => hmiss j b (by omega) h2 h3)

/-- The asteroid loop of a projectile whose first overlapping asteroid, at index `k`, gives
a hit that ends in a `break`: the loop makes that one hit and nothing else. -/
theorem asteroidScan_first_hit (bigInit : AsteroidInit) (pit : Nat) (g : Game) (p : Projectile)
    (k : Nat) (a : Asteroid) (hp : g.projectiles[pit]? = some p)
    (ha : g.asteroids[k]? = some a)
    (hfirst : ∀ (j : Nat) (b : Asteroid), j < k → g.asteroids[j]? = some b →
      overlaps p b = false)
    (hov : overlaps p a = true)
    (hbrk : (hitAsteroid bigInit g pit k p a).2.2 = true) :
    asteroidScan bigInit pit g 0 =
      some ((hitAsteroid bigInit g pit k p a).1, (hitAsteroid bigInit g pit k p a).2.1) := by
  have hlt : k < g.asteroids.length := by
    by_contra hc
    rw [List.getElem?_eq_none (by omega)] at ha
    simp at ha
  have hak : g.asteroids[k] = a := by
    rw [List.getElem?_eq_getElem hlt] at ha
    simpa using ha
  rw [asteroidScan_skip bigInit pit g p hp k (le_of_lt hlt) k 0 (by omega)
    (fun j b _ h2 h3 => hfirst j b h2 h3)]
  refine asteroidScan_hit_break bigInit pit g k p _ _ hlt hp (by rw [hak]; exact hov) ?_
  rw [hak, ← hbrk]

/-- The value of `removed` after a hit tells whether the projectile is a consumable one. -/
theorem hitAsteroid_removed (bigInit : AsteroidInit) (g : Game) (pit ait : Nat)
    (p : Projectile) (a : Asteroid) :
    (hitAsteroid bigInit g pit ait p a).2.1 = p.consumable := by
  cases hbig : a.isBig
  · rw [hitAsteroid_destroy_standard bigInit g pit ait p a hbig]
  · by_cases hpos : 0 < a.hp - p.GetDamage
    · rw [hitAsteroid_survive bigInit g pit ait p a hbig hpos]
    · rw [hitAsteroid_destroy_big bigInit g pit ait p a hbig (by omega)]

/-- The asteroid loop of a projectile that is not consumable (the special projectile)
never erases the projectile. -/
theorem asteroidScan_not_consumed (bigInit : AsteroidInit) (pit : Nat) (p : Projectile)
    (hc : p.consumable = false) (g : Game) (ait : Nat) (g1 : Game) (r : Bool)
    (hp : g.projectiles[pit]? = some p)
    (h : asteroidScan bigInit pit g ait = some (g1, r)) :
    r = false ∧ g1.projectiles = g.projectiles := by
  have hpit : ∀ s : Game, s.projectiles[pit]? = some p → pit < s.projectiles.length := by
    intro s hs
    by_contra hcon
    rw [List.getElem?_eq_none (by omega)] at hs
    simp at hs
  induction g, ait using asteroidScan.induct bigInit pit with
  | case1 g =>
    rw [asteroidScan_end] at h
    simp only [Option.some.injEq, Prod.mk.injEq] at h
    exact ⟨h.2.symm, by rw [← h.1]⟩
  | case2 g ait hne hlt hnone =>
    rw [hnone] at hp
    simp at hp
  | case3 g ait hne hlt q hq hov g2 rem hr =>
    have hqp : q = p := by
      rw [hq] at hp
      simpa using hp
    subst hqp
    rw [asteroidScan_hit_break bigInit pit g ait q g2 rem hlt hq hov hr] at h
    simp only [Option.some.injEq, Prod.mk.injEq] at h
    have h1 := hitAsteroid_removed bigInit g pit ait q g.asteroids[ait]
    have h2 := (hitAsteroid_projectiles bigInit g pit ait q g.asteroids[ait] (hpit g hq)).2
    rw [hr] at h1 h2
    simp only at h1 h2
    have hrem : rem = false := by rw [h1, hc]
    rw [← h.1, ← h.2]
    exact ⟨hrem, h2 hrem⟩
  | case4 g ait hne hlt q hq hov g2 rem hr ih =>
    have hqp : q = p := by
      rw [hq] at hp
      simpa using hp
    subst hqp
    rw [asteroidScan_hit_continue bigInit pit g ait q g2 rem hlt hq hov hr] at h
    have h1 := hitAsteroid_removed bigInit g pit ait q g.asteroids[ait]
    have h2 := (hitAsteroid_projectiles bigInit g pit ait q g.asteroids[ait] (hpit g hq)).2
    rw [hr] at h1 h2
    simp only at h1 h2
    have hrem : rem = false := by rw [h1, hc]
    have hproj : g2.projectiles = g.projectiles := h2 hrem
    have := ih (by rw [hproj]; exact hq) h
    exact ⟨this.1, this.2.trans hproj⟩
  | case5 g ait hne hlt q hq hov ih =>
    rw [asteroidScan_miss bigInit pit g ait q hlt hq (by simpa using hov)] at h
    exact ih hp h
  | case6 g ait hne hlt =>
    rw [asteroidScan] at h
    simp [hne, hlt] at h

/-- C11 (as amended): in the asteroid loop of a projectile whose first overlapping asteroid
(in collection order, at index `k`) gives a hit that consumes the projectile, or is a Big
asteroid that survives the hit, exactly that asteroid is resolved: the loop makes this one
hit and ends; a surviving Big asteroid stays at its index with its hit points reduced, a
destroyed asteroid is erased, and every other asteroid is left in the collection as it
was.  A projectile that overlaps no asteroid changes nothing.  A projectile that is not
consumable (the special one) is never erased by its asteroid loop. -/
theorem C11_first_asteroid_only (bigInit : AsteroidInit) (pit : Nat) (g : Game)
    (p : Projectile) (k : Nat) (a : Asteroid)
    (hp : g.projectiles[pit]? = some p) (ha : g.asteroids[k]? = some a)
    (hfirst : ∀ (j : Nat) (b : Asteroid), j < k → g.asteroids[j]? = some b →
      overlaps p b = false)
    (hov : overlaps p a = true)
    (hstop : p.consumable = true ∨ (a.isBig = true ∧ 0 < a.hp - p.GetDamage)) :
    asteroidScan bigInit pit g 0 =
      some ((hitAsteroid bigInit g pit k p a).1, p.consumable) ∧
    ((a.isBig = true ∧ 0 < a.hp - p.GetDamage) →
      (hitAsteroid bigInit g pit k p a).1.asteroids =
        g.asteroids.set k { a with hp := a.hp - p.GetDamage }) ∧
    (¬ (a.isBig = true ∧ 0 < a.hp - p.GetDamage) →
      (hitAsteroid bigInit g pit k p a).1.asteroids =
        g.asteroids.eraseIdx k ++
          (if 29 ≤ g.destroyedAsteroids ∧ g.bigAsteroidSpawned = false
           then [BigAsteroid bigInit] else [])) ∧
    (∀ s : Game, s.projectiles[pit]? = some p →
      (∀ (j : Nat) (b : Asteroid), s.asteroids[j]? = some b → overlaps p b = false) →
      asteroidScan bigInit pit s 0 = some (s, false)) ∧
    (∀ (s s1 : Game) (q : Projectile) (r : Bool), s.projectiles[pit]? = some q →
      q.consumable = false → asteroidScan bigInit pit s 0 = some (s1, r) →
      r = false ∧ s1.projectiles = s.projectiles) := by
  have hrem := hitAsteroid_removed bigInit g pit k p a
  have hbrk : (hitAsteroid bigInit g pit k p a).2.2 = true := by
    cases hbig : a.isBig
    · rw [hitAsteroid_destroy_standard bigInit g pit k p a hbig]
      rcases hstop with h | h
      · exact h
      · rw [hbig] at h
        simp at h
    · by_cases hpos : 0 < a.hp - p.GetDamage
      · rw [hitAsteroid_survive bigInit g pit k p a hbig hpos]
      · rw [hitAsteroid_destroy_big bigInit g pit k p a hbig (by omega)]
        rcases hstop with h | h
        · exact h
        · exact absurd h.2 hpos
  refine ⟨?_, ?_, ?_, ?_, ?_⟩
  · rw [asteroidScan_first_hit bigInit pit g p k a hp ha hfirst hov hbrk, hrem]
  · intro h
    rw [hitAsteroid_survive bigInit g pit k p a h.1 h.2]
  · intro h
    cases hbig : a.isBig
    · rw [hitAsteroid_destroy_standard bigInit g pit k p a hbig, destroyAsteroid_eq]
    · have hle : a.hp - p.GetDamage ≤ 0 := by
        by_contra hc
        exact h ⟨hbig, by omega⟩
      rw [hitAsteroid_destroy_big bigInit g pit k p a hbig hle, destroyAsteroid_eq]
      show (g.asteroids.set k _).eraseIdx k ++ _ = _
      rw [list_eraseIdx_set]
  · intro s hs hnone
    rw [asteroidScan_skip bigInit pit s p hs s.asteroids.length (le_refl _)
      s.asteroids.length 0 (by omega) (fun j b _ _ h3 => hnone j b h3)]
    exact asteroidScan_end bigInit pit s
  · intro s s1 q r hs hq hscan
    exact asteroidScan_not_consumed bigInit pit q hq s 0 s1 r hs hscan

/-- The overlap test of the sample laser and of the sample special projectile with the
sample asteroids. -/
theorem sample_overlaps :
    overlaps sampleShot (sampleRock 100 100) = false ∧
    overlaps sampleShot (sampleRock 600 300) = true ∧
    overlaps sampleShot (sampleRock 600 310) = true ∧
    overlaps sampleSpecial (sampleRock 600 300) = true ∧
    overlaps sampleSpecial (sampleRock 100 100) = false ∧
    overlaps sampleSpecial (sampleRock 600 310) = true ∧
    overlaps sampleSpecial (sampleRock 1000 700) = false := by
  have hs : sampleShot.GetRadius = 2 := rfl
  have hS : sampleSpecial.GetRadius = 18 := rfl
  have hr : ∀ x y : ℚ, (sampleRock x y).GetRadius = 16 := by
    intro x y
    norm_num [sampleRock, TriangleAsteroid, Asteroid.ofInit, Asteroid.GetRadius, Size.toInt]
  have hps : sampleShot.position = ⟨600, 300⟩ := rfl
  have hpS : sampleSpecial.position = ⟨600, 300⟩ := rfl
  have hpr : ∀ x y : ℚ, (sampleRock x y).position = ⟨x, y⟩ := fun _ _ => rfl
  refine ⟨?_, ?_, ?_, ?_, ?_, ?_, ?_⟩ <;>
    norm_num [overlaps, within, hs, hS, hr, hps, hpS, hpr]

/-- C11 (witness): the sample laser overlaps the second and the third of three asteroids;
its asteroid loop destroys the second and leaves the first and the third. -/
theorem C11_first_asteroid_only_witness :
    asteroidScan sampleInit 0 sampleVolley 0 =
      some ((hitAsteroid sampleInit sampleVolley 0 1 sampleShot (sampleRock 600 300)).1, true) ∧
    (hitAsteroid sampleInit sampleVolley 0 1 sampleShot (sampleRock 600 300)).1.asteroids =
      [sampleRock 100 100, sampleRock 600 310] := by
  have h := C11_first_asteroid_only sampleInit 0 sampleVolley sampleShot 1 (sampleRock 600 300)
    rfl rfl
    (by intro j b hj hb
        have hj0 : j = 0 := by omega
        subst hj0
        have hb0 : b = sampleRock 100 100 := by
          have : sampleVolley.asteroids[0]? = some (sampleRock 100 100) := rfl
          rw [this] at hb
          simpa using hb.symm
        rw [hb0]
        exact sample_overlaps.1)
    sample_overlaps.2.1 (Or.inl (by decide))
  have hc : sampleShot.consumable = true := by decide
  refine ⟨by rw [h.1, hc], ?_⟩
  rw [h.2.2.1 (by intro hx; exact absurd hx.1 (by decide))]
  rfl

/-- The asteroid loop after a projectile that is not consumable has destroyed a standard
asteroid: it goes on, in the state after the destruction, with `++ait`. -/
theorem asteroidScan_pass_on (bigInit : AsteroidInit) (pit : Nat) (g : Game) (ait : Nat)
    (p : Projectile) (a : Asteroid) (hp : g.projectiles[pit]? = some p)
    (ha : g.asteroids[ait]? = some a) (hov : overlaps p a = true)
    (hc : p.consumable = false) (hstd : a.isBig = false) :
    asteroidScan bigInit pit g ait =
      asteroidScan bigInit pit (destroyAsteroid bigInit g pit ait p false).1 (ait + 1) := by
  have hlt : ait < g.asteroids.length := by
    by_contra hcon
    rw [List.getElem?_eq_none (by omega)] at ha
    simp at ha
  have hak : g.asteroids[ait] = a := by
    rw [List.getElem?_eq_getElem hlt] at ha
    simpa using ha
  refine asteroidScan_hit_continue bigInit pit g ait p _ false hlt hp (by rw [hak]; exact hov) ?_
  rw [hak, hitAsteroid_destroy_standard bigInit g pit ait p a hstd, hc]

/-- C11 (counterexample): one special projectile and four asteroids, of which the first and
the third overlap it: one collision pass destroys both of them with the same projectile,
which stays in the projectile collection. -/
theorem C11_special_destroys_two :
    sampleBurst.projectiles = [sampleSpecial] ∧
    sampleBurst.asteroids =
      [sampleRock 600 300, sampleRock 100 100, sampleRock 600 310, sampleRock 1000 700] ∧
    overlaps sampleSpecial (sampleRock 600 300) = true ∧
    overlaps sampleSpecial (sampleRock 600 310) = true ∧
    collisions sampleInit sampleBurst 0 = some sampleBurstTwo ∧
    sampleBurstTwo.asteroids = [sampleRock 100 100, sampleRock 1000 700] ∧
    sampleBurstTwo.projectiles = [sampleSpecial] ∧
    sampleBurstTwo.destroyedAsteroids = 2 := by
  have hc : sampleSpecial.consumable = false := by decide
  have hstd : ∀ x y : ℚ, (sampleRock x y).isBig = false := fun _ _ => rfl
  have e1 : sampleBurstOne.asteroids =
      [sampleRock 100 100, sampleRock 600 310, sampleRock 1000 700] := by
    unfold sampleBurstOne
    rw [destroyAsteroid_eq]
    rfl
  have p1 : sampleBurstOne.projectiles = [sampleSpecial] := by
    unfold sampleBurstOne
    rw [destroyAsteroid_eq]
    rfl
  have e2 : sampleBurstTwo.asteroids = [sampleRock 100 100, sampleRock 1000 700] := by
    unfold sampleBurstTwo
    rw [destroyAsteroid_eq, e1]
    rfl
  have p2 : sampleBurstTwo.projectiles = [sampleSpecial] := by
    unfold sampleBurstTwo
    rw [destroyAsteroid_eq, p1]
    rfl
  have d2 : sampleBurstTwo.destroyedAsteroids = 2 := by
    unfold sampleBurstTwo
    rw [destroyAsteroid_eq]
    unfold sampleBurstOne
    rw [destroyAsteroid_eq]
    rfl
  have hscan : asteroidScan sampleInit 0 sampleBurst 0 = some (sampleBurstTwo, false) := by
    rw [asteroidScan_pass_on sampleInit 0 sampleBurst 0 sampleSpecial (sampleRock 600 300)
      rfl rfl sample_overlaps.2.2.2.1 hc (hstd _ _)]
    show asteroidScan sampleInit 0 sampleBurstOne 1 = _
    rw [asteroidScan_pass_on sampleInit 0 sampleBurstOne 1 sampleSpecial (sampleRock 600 310)
      (by rw [p1]; rfl) (by rw [e1]; rfl) sample_overlaps.2.2.2.2.2.1 hc (hstd _ _)]
    show asteroidScan sampleInit 0 sampleBurstTwo 2 = _
    have hlen : sampleBurstTwo.asteroids.length = 2 := by rw [e2]; rfl
    rw [← hlen]
    exact asteroidScan_end sampleInit 0 sampleBurstTwo
  refine ⟨rfl, rfl, sample_overlaps.2.2.2.1, sample_overlaps.2.2.2.2.2.1, ?_, e2, p2, d2⟩
  rw [collisions_kept sampleInit sampleBurst 0 sampleBurstTwo (by decide) hscan]
  have hlen : sampleBurstTwo.projectiles.length = 0 + 1 := by rw [p2]; rfl
  rw [← hlen]
  exact collisions_end sampleInit sampleBurstTwo

/-- The value of `fmodf x y` for `0 ≤ x` and `0 < y` lies in `[0, y)`. -/
theorem fmodf_bounds (x y : ℚ) (hx : 0 ≤ x) (hy : 0 < y) :
    0 ≤ fmodf x y ∧ fmodf x y < y := by
  have hq : 0 ≤ x / y := div_nonneg hx (le_of_lt hy)
  have h1 := Int.floor_le (x / y)
  have h2 := Int.lt_floor_add_one (x / y)
  have hxy : x / y * y = x := div_mul_cancel₀ x (ne_of_gt hy)
  unfold fmodf
  simp only [hq, if_true]
  constructor
  · nlinarith
  · nlinarith

/-- The shooting block of a frame in which the fire key is not held and the special weapon
is not fired: no shot, and `shotTimer` is reduced modulo the shot interval exactly when it
is above the interval. -/
theorem shooting_released (g : Game) (i : Input) (hrel : i.keySpace = false)
    (hnospecial : (g.player.IsAlive && g.specialReady && i.keyR) = false) :
    shooting g i = some (specialShot (useHealthpack g i) i, 0) ∧
    (specialShot (useHealthpack g i) i).currentWeapon = g.currentWeapon ∧
    (specialShot (useHealthpack g i) i).player.GetFireRate g.currentWeapon =
      g.player.GetFireRate g.currentWeapon ∧
    (specialShot (useHealthpack g i) i).shotTimer =
      (if g.shotTimer > 1 / g.player.GetFireRate g.currentWeapon
       then fmodf g.shotTimer (1 / g.player.GetFireRate g.currentWeapon) else g.shotTimer) := by
  have hfire : fire g i = some (g, 0) := by
    unfold fire
    simp [hrel]
  have hu1 : (useHealthpack g i).shotTimer = g.shotTimer := by
    unfold useHealthpack
    split <;> rfl
  have hu2 : (useHealthpack g i).currentWeapon = g.currentWeapon := by
    unfold useHealthpack
    split <;> rfl
  have hu3 : (useHealthpack g i).player.GetFireRate g.currentWeapon =
      g.player.GetFireRate g.currentWeapon := by
    unfold useHealthpack
    split <;> rfl
  have hu4 : ((useHealthpack g i).player.IsAlive && (useHealthpack g i).specialReady && i.keyR)
      = false := by
    rw [← hnospecial]
    unfold useHealthpack
    split <;> rfl
  have hsp : specialShot (useHealthpack g i) i =
      (if (useHealthpack g i).shotTimer >
          1 / (useHealthpack g i).player.GetFireRate (useHealthpack g i).currentWeapon
       then { useHealthpack g i with
              shotTimer := fmodf (useHealthpack g i).shotTimer
                (1 / (useHealthpack g i).player.GetFireRate (useHealthpack g i).currentWeapon) }
       else useHealthpack g i) := by
    unfold specialShot
    rw [if_neg (by rw [hu4]; simp)]
  refine ⟨?_, ?_, ?_, ?_⟩
  · unfold shooting
    rw [hfire]
  · rw [hsp]
    split <;> exact hu2
  · rw [hsp]
    split <;> exact hu3
  · rw [hsp, hu1, hu2, hu3]
    by_cases hgt : g.shotTimer > 1 / g.player.GetFireRate g.currentWeapon
    · rw [if_pos hgt, if_pos hgt]
    · rw [if_neg hgt, if_neg hgt]
      exact hu1

/-- With the constructor's fire rates every weapon has a positive fire rate. -/
theorem timerInv_rate_pos (g : Game) (w : WeaponType) (h : g.timerInv) :
    0 < g.player.GetFireRate w := by
  unfold Ship.GetFireRate
  split
  · rw [h.2.1]; norm_num
  · rw [h.2.2]; norm_num

/-- The hits leave the ship alone. -/
theorem hitAsteroid_player (bigInit : AsteroidInit) (g : Game) (pit ait : Nat)
    (p : Projectile) (a : Asteroid) :
    (hitAsteroid bigInit g pit ait p a).1.player = g.player := by
  cases hbig : a.isBig
  · rw [hitAsteroid_destroy_standard bigInit g pit ait p a hbig, destroyAsteroid_eq]
  · by_cases hpos : 0 < a.hp - p.GetDamage
    · rw [hitAsteroid_survive bigInit g pit ait p a hbig hpos]
    · rw [hitAsteroid_destroy_big bigInit g pit ait p a hbig (by omega), destroyAsteroid_eq]

/-- The ship collisions keep the fire rates of the ship. -/
theorem removeCollided_rates (dt : ℚ) (l : List Asteroid) (s : Ship) :
    (removeCollided dt s l).1.fireRateLaser = s.fireRateLaser ∧
    (removeCollided dt s l).1.fireRateBullet = s.fireRateBullet := by
  induction l generalizing s with
  | nil => exact ⟨rfl, rfl⟩
  | cons x rest ih =>
    have h1 : (remove_collision dt s x).1.fireRateLaser = s.fireRateLaser ∧
        (remove_collision dt s x).1.fireRateBullet = s.fireRateBullet := by
      unfold remove_collision
      split
      · unfold Ship.TakeDamage
        dsimp only
        split
        · exact ⟨rfl, rfl⟩
        · split <;> exact ⟨rfl, rfl⟩
      · exact ⟨rfl, rfl⟩
    have h2 := ih (remove_collision dt s x).1
    exact ⟨h2.1.trans h1.1, h2.2.trans h1.2⟩

/-- The shooting block of a frame with a non-negative frame time keeps the shot timer
non-negative and the fire rates of the ship. -/
theorem shooting_timerInv (g : Game) (i : Input) (g1 : Game) (n : Nat) (hdt : 0 ≤ i.dt)
    (h : g.timerInv) (hs : shooting g i = some (g1, n)) : g1.timerInv := by
  unfold shooting at hs
  split at hs
  · simp at hs
  · rename_i g2 n2 hfire
    simp only [Option.some.injEq, Prod.mk.injEq] at hs
    have h2 : g2.timerInv := by
      unfold fire at hfire
      split at hfire
      · have hpos : 0 < 1 / g.player.GetFireRate g.currentWeapon := by
          have := timerInv_rate_pos g g.currentWeapon h
          positivity
        obtain ⟨g3, e1, e2⟩ := shotLoop_spec (1 / g.player.GetFireRate g.currentWeapon) hpos
          { g with shotTimer := g.shotTimer + i.dt } 0
          (by show 0 ≤ g.shotTimer + i.dt; linarith [h.1])
        rw [e1] at hfire
        simp only [Option.some.injEq, Prod.mk.injEq] at hfire
        have hkeep := shotLoop_preserves (fun s => s.player = g.player)
          (1 / g.player.GetFireRate g.currentWeapon) (fun s hs => hs) _ 0 g3 _ e1 rfl
        rw [← hfire.1]
        refine ⟨?_, by rw [hkeep]; exact h.2.1, by rw [hkeep]; exact h.2.2⟩
        rw [e2]
        have hb := Int.floor_le ((g.shotTimer + i.dt) / (1 / g.player.GetFireRate g.currentWeapon))
        have hmul := mul_le_mul_of_nonneg_right hb (le_of_lt hpos)
        rw [div_mul_cancel₀ _ (ne_of_gt hpos)] at hmul
        show 0 ≤ g.shotTimer + i.dt -
          ⌊(g.shotTimer + i.dt) / (1 / g.player.GetFireRate g.currentWeapon)⌋ *
            (1 / g.player.GetFireRate g.currentWeapon)
        linarith
      · simp only [Option.some.injEq, Prod.mk.injEq] at hfire
        rw [← hfire.1]
        exact h
    have h3 : (useHealthpack g2 i).timerInv := by
      unfold useHealthpack
      split
      · exact h2
      · exact h2
    rw [← hs.1]
    unfold specialShot
    split
    · exact h3
    · dsimp only
      split
      · refine ⟨?_, h3.2.1, h3.2.2⟩
        have hpos : 0 < 1 / (useHealthpack g2 i).player.GetFireRate
            (useHealthpack g2 i).currentWeapon := by
          have := timerInv_rate_pos _ (useHealthpack g2 i).currentWeapon h3
          positivity
        exact (fmodf_bounds _ _ h3.1 hpos).1
      · exact h3

/-- The statements of the frame before the shooting block keep the shot timer non-negative
and the fire rates of the ship. -/
theorem prelude_timerInv (g : Game) (i : Input) (h : g.timerInv) :
    (controls (restart (updatePlayer (tick g i.dt) i) i) i).timerInv := by
  have h1 : (updatePlayer (tick g i.dt) i).timerInv := by
    unfold updatePlayer tick Ship.Update
    dsimp only
    split <;> exact h
  have h2 : (restart (updatePlayer (tick g i.dt) i) i).timerInv := by
    unfold restart
    split
    · exact ⟨h1.1, rfl, rfl⟩
    · exact h1
  exact h2

/-- A frame with a non-negative frame time keeps the shot timer non-negative and the fire
rates of the ship. -/
theorem frame_timerInv (g : Game) (i : Input) (g1 : Game) (n : Nat) (hdt : 0 ≤ i.dt)
    (h : g.timerInv) (hf : frame g i = some (g1, n)) : g1.timerInv := by
  have hpre := prelude_timerInv g i h
  unfold frame at hf
  split at hf
  · simp only [Option.some.injEq, Prod.mk.injEq] at hf
    rw [← hf.1]
    exact h
  · split at hf
    · simp at hf
    · rename_i g2 n2 hshoot
      split at hf
      · simp at hf
      · rename_i g3 hcoll
        simp only [Option.some.injEq, Prod.mk.injEq] at hf
        have h2 := shooting_timerInv _ i g2 n2 hdt hpre hshoot
        have h3 : (updateProjectiles (spawn g2 i) i.dt).timerInv := by
          unfold updateProjectiles spawn
          split <;> exact h2
        have h4 : g3.timerInv :=
          collisions_preserves Game.timerInv i.bigInit
            (fun s pit ait p _ hs => by
              unfold Game.timerInv
              rw [hitAsteroid_shotTimer, hitAsteroid_player]
              exact hs) _ 0 g3 hcoll h3
        rw [← hf.1]
        have hr := removeCollided_rates i.dt g3.asteroids g3.player
        exact ⟨h4.1, hr.1.trans h4.2.1, hr.2.trans h4.2.2⟩

/-- A run with non-negative frame times keeps the shot timer non-negative and the fire
rates of the ship. -/
theorem Run_timerInv (inputs : List Input) (g g1 : Game) (n : Nat)
    (hdt : ∀ i ∈ inputs, 0 ≤ i.dt) (h : g.timerInv)
    (hrun : Run g inputs = some (g1, n)) : g1.timerInv := by
  induction inputs generalizing g n with
  | nil =>
    simp only [Run, Option.some.injEq, Prod.mk.injEq] at hrun
    rw [← hrun.1]
    exact h
  | cons i rest ih =>
    simp only [Run] at hrun
    split at hrun
    · simp at hrun
    · rename_i g2 n2 hf
      split at hrun
      · simp at hrun
      · rename_i g3 m hrest
        simp only [Option.some.injEq, Prod.mk.injEq] at hrun
        rw [hrun.1] at hrest
        exact ih g2 m (fun j hj => hdt j (List.mem_cons_of_mem _ hj))
          (frame_timerInv g i g2 n2 (hdt i (List.mem_cons_self _ _)) h hf) hrest

/-- C12 (as amended): over exact arithmetic, in a frame in which the fire key is not held
and the special weapon is not fired, with a non-negative `shotTimer` and a positive fire
rate of the current weapon, the shooting block makes no shot, keeps the weapon, and leaves
`shotTimer` in the closed range `[0, interval]` for `interval = 1 / fireRate`: a value
above the interval is reduced modulo the interval, that is to
`fmodf shotTimer interval = shotTimer - interval * ⌊shotTimer / interval⌋`, which is below
the interval; a value up to the interval is kept; so `shotTimer` is equal to the interval
afterwards only when it was before.  In a run with non-negative frame times the shooting
block of every frame starts with a non-negative `shotTimer` and a positive fire rate. -/
theorem C12_timer_on_release (g : Game) (i : Input) (hrel : i.keySpace = false)
    (hnospecial : (g.player.IsAlive && g.specialReady && i.keyR) = false)
    (hrate : 0 < g.player.GetFireRate g.currentWeapon) (ht : 0 ≤ g.shotTimer) :
    (∃ g1 : Game, shooting g i = some (g1, 0) ∧
      g1.currentWeapon = g.currentWeapon ∧
      g1.player.GetFireRate g1.currentWeapon = g.player.GetFireRate g.currentWeapon ∧
      0 ≤ g1.shotTimer ∧
      g1.shotTimer ≤ 1 / g1.player.GetFireRate g1.currentWeapon ∧
      (g1.shotTimer = 1 / g1.player.GetFireRate g1.currentWeapon ↔
        g.shotTimer = 1 / g.player.GetFireRate g.currentWeapon) ∧
      (1 / g.player.GetFireRate g.currentWeapon < g.shotTimer →
        g1.shotTimer = fmodf g.shotTimer (1 / g.player.GetFireRate g.currentWeapon) ∧
        g1.shotTimer = g.shotTimer - 1 / g.player.GetFireRate g.currentWeapon *
          ((⌊g.shotTimer / (1 / g.player.GetFireRate g.currentWeapon)⌋ : ℤ) : ℚ) ∧
        g1.shotTimer < 1 / g.player.GetFireRate g.currentWeapon) ∧
      (g.shotTimer ≤ 1 / g.player.GetFireRate g.currentWeapon →
        g1.shotTimer = g.shotTimer)) ∧
    (∀ (inputs : List Input) (s : Game) (N : Nat) (w si : ℚ) (j : Input),
      (∀ x ∈ inputs, 0 ≤ x.dt) → Run (Game.initial w si) inputs = some (s, N) →
      0 ≤ (controls (restart (updatePlayer (tick s j.dt) j) j) j).shotTimer ∧
      0 < (controls (restart (updatePlayer (tick s j.dt) j) j) j).player.GetFireRate
        (controls (restart (updatePlayer (tick s j.dt) j) j) j).currentWeapon) := by
  obtain ⟨h1, h2, h3, h4⟩ := shooting_released g i hrel hnospecial
  have hint : 0 < 1 / g.player.GetFireRate g.currentWeapon := by positivity
  have hfm := fmodf_bounds g.shotTimer (1 / g.player.GetFireRate g.currentWeapon) ht hint
  have hfloor : fmodf g.shotTimer (1 / g.player.GetFireRate g.currentWeapon) =
      g.shotTimer - 1 / g.player.GetFireRate g.currentWeapon *
        ((⌊g.shotTimer / (1 / g.player.GetFireRate g.currentWeapon)⌋ : ℤ) : ℚ) := by
    have hq : 0 ≤ g.shotTimer / (1 / g.player.GetFireRate g.currentWeapon) :=
      div_nonneg ht (le_of_lt hint)
    unfold fmodf
    simp only [hq, if_true]
  refine ⟨⟨specialShot (useHealthpack g i) i, h1, h2, by rw [h2, h3], ?_, ?_, ?_, ?_, ?_⟩, ?_⟩
  · rw [h4]
    split
    · exact hfm.1
    · exact ht
  · rw [h4, h2, h3]
    split
    · exact le_of_lt hfm.2
    · rename_i hgt
      exact not_lt.1 hgt
  · rw [h4, h2, h3]
    split
    · rename_i hgt
      constructor
      · intro he
        exact absurd he (ne_of_lt hfm.2)
      · intro he
        exact absurd he (ne_of_gt hgt)
    · exact Iff.rfl
  · intro hgt
    have hv : (specialShot (useHealthpack g i) i).shotTimer =
        fmodf g.shotTimer (1 / g.player.GetFireRate g.currentWeapon) := by
      rw [h4, if_pos hgt]
    exact ⟨hv, hv.trans hfloor, by rw [hv]; exact hfm.2⟩
  · intro hle
    rw [h4, if_neg (not_lt.2 hle)]
  · intro inputs s N w si j hdt hrun
    have h0 : (Game.initial w si).timerInv := ⟨le_refl _, rfl, rfl⟩
    have hs := prelude_timerInv s j (Run_timerInv inputs _ s N hdt h0 hrun)
    exact ⟨hs.1, timerInv_rate_pos _ _ hs⟩

/-- C12 (witness): after a switch to the bullet weapon with 1/20 s in `shotTimer` and the
fire key released, the shooting block reduces `shotTimer` modulo the interval 1/22 s, to
`1/20 - 1/22 = 1/220` s, a value in `[0, 1/22]` that is not the interval. -/
theorem C12_timer_on_release_witness :
    ∃ g1 : Game, shooting sampleOverdue idleInput = some (g1, 0) ∧
      0 ≤ g1.shotTimer ∧ g1.shotTimer ≤ 1 / 22 ∧ g1.shotTimer ≠ 1 / 22 ∧
      g1.shotTimer = 1 / 220 := by
  have hr : sampleOverdue.player.GetFireRate sampleOverdue.currentWeapon = 22 := by
    simp [sampleOverdue, Game.initial, PlayerShip, Ship.GetFireRate]
  have hs : sampleOverdue.shotTimer = 1 / 20 := rfl
  obtain ⟨g1, h1, _, h3, h4, h5, h6, h7, _⟩ := (C12_timer_on_release sampleOverdue idleInput
    rfl rfl (by rw [hr]; norm_num) (by rw [hs]; norm_num)).1
  rw [h3, hr] at h5 h6
  rw [hr, hs] at h7
  rw [hs] at h6
  have hfl : ⌊(1 / 20 : ℚ) / (1 / 22)⌋ = 1 := by
    rw [Int.floor_eq_iff]
    constructor <;> norm_num
  have h8 := (h7 (by norm_num)).2.1
  rw [hfl] at h8
  refine ⟨g1, h1, h4, h5, ?_, ?_⟩
  · intro he
    have := h6.1 he
    norm_num at this
  · rw [h8]
    norm_num

/-- The shooting block of a frame in which the fire key is not held makes no shot. -/
theorem shooting_not_held (g : Game) (i : Input) (hrel : i.keySpace = false) :
    shooting g i = some (specialShot (useHealthpack g i) i, 0) := by
  have hfire : fire g i = some (g, 0) := by
    unfold fire
    simp [hrel]
  unfold shooting
  rw [hfire]

/-- The first sample frame: a new game, the fire key held for 1/22 s. -/
theorem frame_load : frame (Game.initial 256 1) loadInput = some (sampleLoaded, 0) := by
  have hshoot : shooting (controls (restart (updatePlayer (tick (Game.initial 256 1) loadInput.dt)
      loadInput) loadInput) loadInput) loadInput = some (sampleLoaded, 0) := by
    unfold shooting fire
    simp [controls, restart, updatePlayer, tick, Ship.Update, Ship.IsAlive, Game.initial,
      PlayerShip, loadInput, idleInput, Ship.GetFireRate]
    rw [shotLoop]
    norm_num [useHealthpack, specialShot, Ship.IsAlive, Ship.GetFireRate, sampleLoaded,
      Game.initial, PlayerShip]
  unfold frame
  rw [if_neg (by simp [tick, Game.initial]), hshoot]
  simp only
  have hq : updateProjectiles (spawn sampleLoaded loadInput) loadInput.dt = sampleLoaded := by
    norm_num [updateProjectiles, spawn, sampleLoaded, Game.initial]
  rw [hq, collisions_no_asteroids loadInput.bigInit sampleLoaded rfl 0 0 rfl]
  simp [shipCollisions, removeCollided, sampleLoaded, Game.initial]

/-- The second sample frame: the fire key released, the weapon switched. -/
theorem frame_switch : frame sampleLoaded switchInput = some (sampleSwitched, 0) := by
  have hshoot : shooting (controls (restart (updatePlayer (tick sampleLoaded switchInput.dt)
      switchInput) switchInput) switchInput) switchInput = some (sampleSwitched, 0) := by
    have hb : ¬ (WeaponType.BULLET = WeaponType.LASER) := by decide
    rw [shooting_not_held _ _ rfl]
    norm_num [controls, restart, updatePlayer, tick, Ship.Update, Ship.IsAlive, Game.initial,
      PlayerShip, switchInput, idleInput, Ship.GetFireRate, useHealthpack, specialShot,
      sampleLoaded, sampleSwitched, nextWeapon, WeaponType.index, WeaponType.ofIndex, hb]
  unfold frame
  rw [if_neg (by simp [tick, sampleLoaded, Game.initial]), hshoot]
  simp only
  have hq : updateProjectiles (spawn sampleSwitched switchInput) switchInput.dt
      = sampleSwitched := by
    norm_num [updateProjectiles, spawn, sampleSwitched, Game.initial]
  rw [hq, collisions_no_asteroids switchInput.bigInit sampleSwitched rfl 0 0 rfl]
  simp [shipCollisions, removeCollided, sampleSwitched, Game.initial]

/-- C12 (counterexample): (1) a new game, one frame with the fire key held for 1/22 s, one
frame with the key released and the weapon switched from the laser to the bullet weapon:
`shotTimer` is 1/22, and with the fire key not held the shooting block of a further frame
leaves it at 1/22, which is the interval of the bullet weapon and so not below it; (2)
with `shotTimer = 1/20` and the special weapon fired in the frame, the shooting block
leaves `shotTimer` at 1/20, above the interval 1/22. -/
theorem C12_timer_not_below_interval :
    Run (Game.initial 256 1) [loadInput, switchInput] = some (sampleSwitched, 0) ∧
    switchInput.keySpace = false ∧
    idleInput.keySpace = false ∧
    (∃ g1 : Game, shooting sampleSwitched idleInput = some (g1, 0) ∧
      g1.currentWeapon = WeaponType.BULLET ∧
      1 / g1.player.GetFireRate g1.currentWeapon = 1 / 22 ∧
      g1.shotTimer = 1 / 22 ∧
      ¬ g1.shotTimer < 1 / g1.player.GetFireRate g1.currentWeapon) ∧
    (∃ g2 : Game, shooting sampleCharged { idleInput with keyR := true } = some (g2, 0) ∧
      g2.usedSpecial = true ∧
      g2.currentWeapon = WeaponType.BULLET ∧
      1 / g2.player.GetFireRate g2.currentWeapon = 1 / 22 ∧
      g2.shotTimer = 1 / 20 ∧
      ¬ g2.shotTimer < 1 / g2.player.GetFireRate g2.currentWeapon) := by
  refine ⟨?_, rfl, rfl, ?_, ?_⟩
  · simp [Run, frame_load, frame_switch]
  · refine ⟨_, shooting_not_held sampleSwitched idleInput rfl, ?_, ?_, ?_, ?_⟩
    · simp [specialShot, useHealthpack, sampleSwitched, idleInput, Game.initial, PlayerShip,
        Ship.IsAlive, Ship.GetFireRate]
    · simp [specialShot, useHealthpack, sampleSwitched, idleInput, Game.initial, PlayerShip,
        Ship.IsAlive, Ship.GetFireRate]
    · simp [specialShot, useHealthpack, sampleSwitched, idleInput, Game.initial, PlayerShip,
        Ship.IsAlive, Ship.GetFireRate]
    · simp [specialShot, useHealthpack, sampleSwitched, idleInput, Game.initial, PlayerShip,
        Ship.IsAlive, Ship.GetFireRate]
  · refine ⟨_, shooting_not_held sampleCharged { idleInput with keyR := true } rfl,
      ?_, ?_, ?_, ?_, ?_⟩
    · simp [specialShot, useHealthpack, sampleCharged, sampleOverdue, idleInput, Game.initial,
        PlayerShip, Ship.IsAlive, Ship.GetFireRate]
    · simp [specialShot, useHealthpack, sampleCharged, sampleOverdue, idleInput, Game.initial,
        PlayerShip, Ship.IsAlive, Ship.GetFireRate]
    · simp [specialShot, useHealthpack, sampleCharged, sampleOverdue, idleInput, Game.initial,
        PlayerShip, Ship.IsAlive, Ship.GetFireRate]
    · simp [specialShot, useHealthpack, sampleCharged, sampleOverdue, idleInput, Game.initial,
        PlayerShip, Ship.IsAlive, Ship.GetFireRate]
    · simp [specialShot, useHealthpack, sampleCharged, sampleOverdue, idleInput, Game.initial,
        PlayerShip, Ship.IsAlive, Ship.GetFireRate]
      norm_num

end Asteroids
